import Mathlib

/-!
Shallow embedding of `newsroom/search.py` (`BaseSearchService` and its
`SearchQuery` context) together with the external collaborators it consumes
(identity/company/product store, section-filter service, index execution),
and proofs about the search-request compilation pipeline, the validation
stages, the version-chain resolver and the all-versions orchestrator.
-/

namespace NewsroomSearch

/-- Truthiness of an optional string parameter, as Python evaluates
`args.get(key)`: absent and empty strings are falsy. -/
def truthyS : Option String → Bool
  | none => false
  | some s => !s.isEmpty

/-- Parameter that may arrive either as a comma-delimited string, as a literal
list, or as some other (invalid) shape; used for `navigation` and
`requested_products` in `search.args`. -/
inductive StrOrList
  | str : String → StrOrList
  | list : List String → StrOrList
  | other : StrOrList
deriving DecidableEq

/-- Python truthiness of a `StrOrList` value: empty string and empty list are
falsy, any other object is truthy. -/
def solTruthy : StrOrList → Bool
  | .str s => !s.isEmpty
  | .list l => !l.isEmpty
  | .other => true

/-- Structured `filter` request parameter: a mapping, a JSON string carrying
its parsed mapping, or a value of the wrong type (on which `json.loads`
raises `TypeError` in the source). -/
inductive FilterParam
  | fdict : List (String × List String) → FilterParam
  | fstr : List (String × List String) → FilterParam
  | fbad : FilterParam
deriving DecidableEq

/-- Python truthiness of the `filter` parameter value. -/
def filterTruthy : FilterParam → Bool
  | .fdict m => !m.isEmpty
  | .fstr _ => true
  | .fbad => true

/-- The request parameters (`search.args`) used by `BaseSearchService`;
`from` is spelled `from_` and `section` is spelled `section_` because those
words are reserved in Lean. -/
structure Args where
  all_versions : Bool
  ignore_latest : Bool
  sort : Option String
  size : Option Nat
  from_ : Option Nat
  user : Option String
  section_ : Option String
  navigation : Option StrOrList
  requested_products : Option StrOrList
  product : Option String
  q : Option String
  default_operator : Option String
  filter : Option FilterParam
  created_from : Option String
  created_to : Option String
  created_from_time : Option String
  timezone_offset : Option Int
  aggs : Bool
deriving DecidableEq

/-- Request args with every parameter absent (`aggs` defaults to true since
the source reads `args.get('aggs', True)`). -/
def emptyArgs : Args :=
  { all_versions := false, ignore_latest := false, sort := none, size := none,
    from_ := none, user := none, section_ := none, navigation := none,
    requested_products := none, product := none, q := none,
    default_operator := none, filter := none, created_from := none,
    created_to := none, created_from_time := none, timezone_offset := none,
    aggs := true }

/-- A user record from the identity store. -/
structure User where
  _id : String
  user_type : String
  company : Option String
deriving DecidableEq

/-- A company record from the company store. -/
structure Company where
  _id : String
  company_type : Option String
  archive_access : Bool
deriving DecidableEq

/-- A product record: a content bundle with an optional index-side
classification code (`sd_product_id`) and an optional stored query. -/
structure Product where
  _id : String
  sd_product_id : Option String
  query : Option String
deriving DecidableEq

/-- A document of the items index, restricted to the fields the embedded code
reads: identity, type markers, version-chain links and product codes. -/
structure Doc where
  _id : String
  type_ : String
  _type : String
  nextversion : Option String
  original_id : Option String
  products_code : List String
deriving DecidableEq

/-- Boolean-query clause shapes produced by the pipeline. -/
inductive Clause
  | termField : String → String → Clause
  | termsField : String → List String → Clause
  | existsField : String → Clause
  | constantScoreExistsField : String → Clause
  | queryStringClause : String → String → Bool → Clause
  | rangeGte : String → String → Clause
  | rangeVersioncreated : Option String → Option String → Clause
  | rawFilters : List (String × List String) → Clause
deriving DecidableEq

/-- The accumulated boolean query: either the pipeline-built shape with
`must`, `must_not` and `should` lists plus optional `minimum_should_match`,
or the shape the all-versions orchestrator substitutes wholesale, a single
`must` clause (`search.query['bool'] = {'must': {'terms': ...}}`). -/
inductive Query
  | boolLists : List Clause → List Clause → List Clause → Option Nat → Query
  | boolMustSingle : Clause → Query
deriving DecidableEq

/-- The `must` list of a pipeline-built boolean query. -/
def mustListOf : Query → List Clause
  | .boolLists m _ _ _ => m
  | .boolMustSingle _ => []

/-- The `must_not` list of a pipeline-built boolean query. -/
def mustNotListOf : Query → List Clause
  | .boolLists _ mn _ _ => mn
  | .boolMustSingle _ => []

/-- Append a clause to the `must` list of a boolean query (the substituted
single-must shape is never mutated by the source, so it is left unchanged). -/
def addMust (c : Clause) : Query → Query
  | .boolLists m mn sh msm => .boolLists (m ++ [c]) mn sh msm
  | q => q

/-- Append a list of clauses to the `must` list of a boolean query. -/
def addMustList (cs : List Clause) : Query → Query
  | .boolLists m mn sh msm => .boolLists (m ++ cs) mn sh msm
  | q => q

/-- Append a clause to the `must_not` list of a boolean query. -/
def addMustNot (c : Clause) : Query → Query
  | .boolLists m mn sh msm => .boolLists m (mn ++ [c]) sh msm
  | q => q

/-- Append a clause to the `should` list of a boolean query. -/
def addShould (c : Clause) : Query → Query
  | .boolLists m mn sh msm => .boolLists m mn (sh ++ [c]) msm
  | q => q

/-- The serializable index request assembled in `search.source`; fields are
optional because the dict starts empty and is populated piecemeal. -/
structure Source where
  query : Option Query
  sort : Option String
  size : Option Nat
  from_ : Option Nat
  aggs : Option String
  highlight : Option String
  post_filter : Option (List Clause)
deriving DecidableEq

/-- The empty `search.source` dict. -/
def emptySource : Source :=
  { query := none, sort := none, size := none, from_ := none, aggs := none,
    highlight := none, post_filter := none }

/-- An id-equality lookup supplied by the endpoint and merged with the query
at execution time. -/
def Lookup := List (String × String)
deriving DecidableEq

/-- The eve `ParsedRequest` fields the service reads. -/
structure Req where
  args : Args
  projection : List String
  sort : Option String
deriving DecidableEq

/-- Mandatory company-type clauses from the `COMPANY_TYPES` configuration. -/
structure CompanyType where
  id : String
  wire_must : Option Clause
  wire_must_not : Option Clause

/-- The external collaborators and configuration consumed by the service:
session user, the identity/company/product store, the section-filter service
clause tables, company-type rules, settings, index store contents and the
abstract matchers used to evaluate opaque clauses. -/
structure Env where
  currentUser : Option User
  findUser : String → Option User
  findCompany : String → Option Company
  productsByNavigation : List String → String → List Product
  productById : String → String → Option String → List Product
  productsByCompany : String → List String → String → List Product
  sectionMust : String → List Clause
  sectionMustNot : String → List Clause
  sectionShould : String → List Clause
  companyTypes : List CompanyType
  wireTimeLimitDays : Option Nat
  wireAggs : String
  analyzeWildcard : Bool
  filterByPostFilter : Bool
  filterAggregationsFlag : Bool
  shouldHighlightFlag : Bool
  aggFieldOf : String → String
  localDate : String → String → Int → String
  endDate : String → String → String
  matchQS : String → Doc → Bool
  rangeGteMatch : String → Doc → Bool
  rangeVCMatch : Option String → Option String → Doc → Bool
  rawFiltersMatch : List (String × List String) → Doc → Bool
  store : List Doc

/-- The mutable `SearchQuery` context object (`search.py` lines 34-61). -/
structure SearchQuery where
  user : Option User
  is_admin : Bool
  company : Option Company
  section_ : Option String
  navigation_ids : List String
  products : List Product
  requested_products : List String
  args : Args
  lookup : Lookup
  projections : List String
  req : Option Req
  source : Source
  query : Query
  highlight : Option String
deriving DecidableEq

/-- A fresh `SearchQuery` as built by `SearchQuery.__init__`. -/
def initSearchQuery : SearchQuery :=
  { user := none, is_admin := false, company := none, section_ := none,
    navigation_ids := [], products := [], requested_products := [],
    args := emptyArgs, lookup := [], projections := [], req := none,
    source := emptySource, query := .boolLists [] [] [] none,
    highlight := none }

/-- Errors raised by the pipeline: `BadParameterValueError` for malformed
parameters, `abort(403)`, `abort(404)` and the `abort(400)` page-limit case. -/
inductive SearchError
  | badParameterValue : String → SearchError
  | authorizationError : String → SearchError
  | notFoundError : String → SearchError
  | limitExceeded : String → SearchError
deriving DecidableEq

/-- Class attribute `BaseSearchService.section`. -/
def sectionDefault : String := "wire"

/-- Class attribute `BaseSearchService.default_page_size`. -/
def default_page_size : Nat := 25

/-- Class attribute `BaseSearchService.default_sort`, kept as an opaque
string rendering of `[dict(versioncreated=desc)]`. -/
def default_sort : String := "versioncreated:desc"

/-- Modelled from the spec: `newsroom.template_filters.is_admin` is not under
`src/`; per the spec administrators are the unrestricted identities, so a
user is an administrator exactly when its user type says so, and an absent
user is not an administrator. -/
def is_admin (user : Option User) : Bool :=
  match user with
  | none => false
  | some u => u.user_type == "administrator"

/-- Modelled from the spec: `newsroom.companies.get_user_company` is not
under `src/`; per the spec the company is derived from the requesting
identity by resolving the user's company reference in the company store, and
an absent user or absent reference yields no company. -/
def get_user_company (env : Env) (user : Option User) : Option Company :=
  match user with
  | none => none
  | some u =>
    match u.company with
    | none => none
    | some cid => if cid.isEmpty then none else env.findCompany cid

/-- Embeds module-level `query_string` (`search.py` lines 22-31): builds a
query-string clause with the configured wildcard analysis and lenient
parsing. -/
def query_string (env : Env) (query : String) (default_operator : String) : Clause :=
  .queryStringClause query default_operator env.analyzeWildcard

/-- Embeds `prefill_search_args` (lines 270-287). -/
def prefill_search_args (s : SearchQuery) (req : Option Req) : SearchQuery :=
  { s with
    args := match req with | none => emptyArgs | some r => r.args,
    projections := match req with
      | none => []
      | some r => if r.projection.isEmpty then [] else r.projection,
    req := req }

/-- Embeds `prefill_search_lookup` (lines 289-296). -/
def prefill_search_lookup (s : SearchQuery) (lookup : Option Lookup) : SearchQuery :=
  { s with lookup := match lookup with | none => [] | some l => l }

/-- Embeds `prefill_search_page` (lines 324-335): defaults sort from the
request object or the service default, and materialises `size` and `from`. -/
def prefill_search_page (s : SearchQuery) : SearchQuery :=
  let args := s.args
  let args :=
    if truthyS args.sort then args
    else
      { args with sort := some (match s.req with
          | some r => match r.sort with
            | some srt => if srt.isEmpty then default_sort else srt
            | none => default_sort
          | none => default_sort) }
  let args := { args with size := some (args.size.getD default_page_size),
                          from_ := some (args.from_.getD 0) }
  { s with args := args }

/-- Embeds `prefill_search_user` (lines 298-314): an admin caller may
impersonate the user named by the `user` parameter, and `is_admin` is then
re-derived for the impersonated identity. -/
def prefill_search_user (env : Env) (s : SearchQuery) : SearchQuery :=
  let current := env.currentUser
  let adm := is_admin current
  if adm && truthyS s.args.user then
    let u := env.findUser (s.args.user.getD "")
    { s with user := u, is_admin := is_admin u }
  else
    { s with user := current, is_admin := adm }

/-- Embeds `prefill_search_company` (lines 316-322). -/
def prefill_search_company (env : Env) (s : SearchQuery) : SearchQuery :=
  { s with company := get_user_company env s.user }

/-- Embeds `prefill_search_section` (lines 337-343). -/
def prefill_search_section (s : SearchQuery) : SearchQuery :=
  { s with section_ := some (if truthyS s.args.section_ then s.args.section_.getD "" else sectionDefault) }

/-- Comma split as Python `str.split(',')` performs it: empty segments are
kept, and a separator-free string yields one segment. -/
def splitCommaAux : List Char → List Char → List String
  | [], acc => [String.mk acc.reverse]
  | c :: rest, acc =>
    if c == ',' then String.mk acc.reverse :: splitCommaAux rest []
    else splitCommaAux rest (c :: acc)

/-- Comma split of a whole string. -/
def splitComma (s : String) : List String :=
  splitCommaAux s.toList []

/-- Embeds `prefill_search_navigation` (lines 345-360). -/
def prefill_search_navigation (s : SearchQuery) : Except SearchError SearchQuery :=
  match s.args.navigation with
  | none => .ok { s with navigation_ids := [] }
  | some nav =>
    if solTruthy nav then
      match nav with
      | .list l => .ok { s with navigation_ids := l }
      | .str str => .ok { s with navigation_ids := splitComma str }
      | .other => .error (.badParameterValue "Invalid navigation parameter")
    else .ok { s with navigation_ids := [] }

/-- First half of `prefill_search_products` (lines 368-375): parse the
explicit `requested_products` parameter into the context. -/
def parseRequestedProducts (s : SearchQuery) : Except SearchError SearchQuery :=
  match s.args.requested_products with
  | some rp =>
    if solTruthy rp then
      match rp with
      | .list l => .ok { s with requested_products := l }
      | .str str => .ok { s with requested_products := splitComma str }
      | .other => .error (.badParameterValue "Invalid requested_products parameter")
    else .ok s
  | none => .ok s

/-- Second half of `prefill_search_products` (lines 377-406): compute the
entitled products for an admin (navigation-filtered or an explicit product
or unrestricted), a company-bound user, or nobody. -/
def assignProducts (env : Env) (s : SearchQuery) : SearchQuery :=
  let sec := s.section_.getD sectionDefault
  if s.is_admin then
    if s.navigation_ids.length ≠ 0 then
      { s with products := env.productsByNavigation s.navigation_ids sec }
    else if truthyS s.args.product then
      { s with products := env.productById (s.args.product.getD "") sec none }
    else
      { s with products := [] }
  else
    match s.company with
    | some comp =>
      if truthyS s.args.product then
        { s with products := env.productById (s.args.product.getD "") sec (some comp._id) }
      else
        { s with products := env.productsByCompany comp._id s.navigation_ids sec }
    | none => { s with products := [] }

/-- Embeds `prefill_search_products` (lines 362-406). -/
def prefill_search_products (env : Env) (s : SearchQuery) : Except SearchError SearchQuery :=
  match parseRequestedProducts s with
  | .error e => .error e
  | .ok s => .ok (assignProducts env s)

/-- The composite-type exclusion clause appended by `prefill_search_items`. -/
def compositeClause : Clause := .termField "type" "composite"

/-- The item-type inclusion clause appended by `prefill_search_items`. -/
def itemsTypeClause : Clause := .termField "_type" "items"

/-- The next-version exclusion clause appended by `prefill_search_items`
unless `ignore_latest` is set. -/
def nextversionClause : Clause := .constantScoreExistsField "nextversion"

/-- Embeds `prefill_search_items` (lines 408-419): seeds the boolean query
with the composite exclusion, the item-type inclusion and, unless
`ignore_latest` is set, the next-version exclusion. -/
def prefill_search_items (s : SearchQuery) : SearchQuery :=
  match s.query with
  | .boolLists m mn sh msm =>
    let mn := mn ++ [compositeClause]
    let m := m ++ [itemsTypeClause]
    let mn := if s.args.ignore_latest then mn else mn ++ [nextversionClause]
    { s with query := .boolLists m mn sh msm }
  | _ => s

/-- Embeds `prefill_search_highlights` (lines 421-437); the body of the
highlight specification is built by an external superdesk helper not under
`src/`, so it is represented by the free-text query it is derived from. -/
def prefill_search_highlights (env : Env) (s : SearchQuery) : SearchQuery :=
  let qs := s.args.q
  if env.shouldHighlightFlag && truthyS qs then
    { s with highlight := some (qs.getD "") }
  else s

/-- Embeds `prefill_search_query` (lines 179-195): the ordered prefill
stages. -/
def prefill_search_query (env : Env) (s : SearchQuery) (lookup : Option Lookup) :
    Except SearchError SearchQuery := do
  let s := prefill_search_lookup s lookup
  let s := prefill_search_page s
  let s := prefill_search_user env s
  let s := prefill_search_company env s
  let s := prefill_search_section s
  let s ← prefill_search_navigation s
  let s ← prefill_search_products env s
  let s := prefill_search_items s
  let s := prefill_search_highlights env s
  pure s

/-- Character-list prefix test used to embed the Python substring operator. -/
def listPrefixEq : List Char → List Char → Bool
  | [], _ => true
  | _ :: _, [] => false
  | a :: as, b :: bs => a == b && listPrefixEq as bs

/-- Contiguous containment of `needle` in a character list. -/
def subSearch (needle : List Char) : List Char → Bool
  | [] => listPrefixEq needle []
  | c :: rest => listPrefixEq needle (c :: rest) || subSearch needle rest

/-- Python `needle in hay` on strings: contiguous substring containment
(the empty needle is contained in every string). -/
def strContainsSub (hay needle : String) : Bool :=
  subSearch needle.toList hay.toList

/-- Embeds `validate_request` (lines 439-454): non-admins need a company and
a non-empty entitled product set; when a `requested_products` parameter is
present, the source iterates `search.args['requested_products']` directly,
so a list is checked element-wise while a comma-delimited string is iterated
character by character. -/
def validate_request (s : SearchQuery) : Except SearchError Unit :=
  if s.is_admin then .ok ()
  else
    match s.company with
    | none => .error (.authorizationError "User does not belong to a company.")
    | some _ =>
      if s.products.length == 0 then
        .error (.authorizationError "Your company does not have any products defined.")
      else
        match s.args.requested_products with
        | some rp =>
          if solTruthy rp then
            let ids := s.products.map (fun c => c._id)
            let allOk :=
              match rp with
              | .str str => str.toList.all (fun ch => ids.contains (String.singleton ch))
              | .list l => l.all (fun p => ids.contains p)
              | .other => true
            if allOk then .ok () else .error (.notFoundError "Invalid product parameter")
          else .ok ()
        | none => .ok ()

/-- Embeds `apply_section_filter` (lines 456-466); the `section_filters`
service is not under `src/`, and per the spec the filter stages append
clauses keyed by the section to the boolean query, which the environment
supplies as three clause tables. -/
def apply_section_filter (env : Env) (s : SearchQuery) : SearchQuery :=
  match s.query with
  | .boolLists m mn sh msm =>
    let sec := s.section_.getD sectionDefault
    { s with query := .boolLists (m ++ env.sectionMust sec)
                                  (mn ++ env.sectionMustNot sec)
                                  (sh ++ env.sectionShould sec) msm }
  | _ => s

/-- Fold of the `COMPANY_TYPES` configuration loop inside
`apply_company_filter`: every entry whose id matches the company type
appends its `wire_must` and `wire_must_not` clauses. -/
def applyCompanyTypes : List CompanyType → String → Query → Query
  | [], _, q => q
  | c :: rest, ct, q =>
    let q :=
      if c.id == ct then
        let q := match c.wire_must with | some cl => addMust cl q | none => q
        match c.wire_must_not with | some cl => addMustNot cl q | none => q
      else q
    applyCompanyTypes rest ct q

/-- Embeds `apply_company_filter` (lines 468-482). -/
def apply_company_filter (env : Env) (s : SearchQuery) : SearchQuery :=
  if s.is_admin then s
  else
    match s.company with
    | none => s
    | some comp =>
      match comp.company_type with
      | none => s
      | some ct =>
        if ct.isEmpty then s
        else { s with query := applyCompanyTypes env.companyTypes ct s.query }

/-- Embeds `apply_time_limit_filter` (lines 484-502): non-admins of a company
without archive access are restricted to the configured rolling window. -/
def apply_time_limit_filter (env : Env) (s : SearchQuery) : SearchQuery :=
  if s.is_admin then s
  else
    match env.wireTimeLimitDays with
    | none => s
    | some n =>
      if n == 0 then s
      else
        match s.company with
        | none => s
        | some comp =>
          if comp.archive_access then s
          else
            { s with query := addMust (.rangeGte "versioncreated"
                ("now-" ++ toString n ++ "d/d")) s.query }

/-- Embeds `apply_product_filter` (lines 526-540): a product excluded by the
raw `requested_products` parameter is skipped (Python `in` is substring
containment when the parameter is a string, list membership when it is a
list); otherwise the product's stored query is appended as a `should`
clause. -/
def apply_product_filter (env : Env) (args : Args) (product : Product) (q : Query) : Query :=
  let reqProdMember : Bool :=
    match args.requested_products with
    | some (.str str) => strContainsSub str product._id
    | some (.list l) => l.contains product._id
    | some .other => false
    | none => false
  let skip := (match args.requested_products with
      | some rp => solTruthy rp
      | none => false) && !reqProdMember
  if skip then q
  else
    match product.query with
    | some pq => if pq.isEmpty then q else addShould (query_string env pq "AND") q
    | none => q

/-- Left fold of `apply_product_filter` over the entitled products. -/
def applyProductFilters (env : Env) (args : Args) : List Product → Query → Query
  | [], q => q
  | p :: rest, q => applyProductFilters env args rest (apply_product_filter env args p q)

/-- Embeds `apply_products_filter` (lines 504-524): an unrestricted admin
skips product filtering; otherwise the secondary product codes become one
terms clause and each product contributes its stored query. -/
def apply_products_filter (env : Env) (s : SearchQuery) : SearchQuery :=
  if s.is_admin && s.navigation_ids.length == 0 && !truthyS s.args.product then s
  else
    let product_ids := s.products.filterMap (fun p =>
      match p.sd_product_id with
      | some v => if v.isEmpty then none else some v
      | none => none)
    let s :=
      if product_ids.length ≠ 0 then
        { s with query := addShould (.termsField "products.code" product_ids) s.query }
      else s
    { s with query := applyProductFilters env s.args s.products s.query }

/-- Embeds `_filter_terms` (lines 246-251). -/
def filter_terms (env : Env) (m : List (String × List String)) : List Clause :=
  m.filterMap (fun kv =>
    if kv.2.isEmpty then none else some (.termsField (env.aggFieldOf kv.1) kv.2))

/-- Embeds `versioncreated_range` (lines 259-268); the timezone-aware date
arithmetic lives in external utilities, supplied by the environment. -/
def versioncreated_range (env : Env) (args : Args) : Clause :=
  let offset := args.timezone_offset.getD 0
  let g :=
    if truthyS args.created_from then
      some (env.localDate (args.created_from.getD "")
        (args.created_from_time.getD "00:00:00") offset)
    else none
  let l :=
    if truthyS args.created_to then
      some (env.endDate (args.created_to.getD "")
        (env.localDate (args.created_to.getD "") "23:59:59" offset))
    else none
  .rangeVersioncreated g l

/-- Parse of the structured `filter` request parameter inside
`apply_request_filter` (lines 551-559): a dict is taken as is, a string is
parsed as JSON, and any other shape raises `BadParameterValueError` through
the caught `TypeError`. -/
def parseFilterParam (args : Args) : Except SearchError (Option (List (String × List String))) :=
  match args.filter with
  | none => .ok none
  | some fp =>
    if filterTruthy fp then
      match fp with
      | .fdict m => .ok (some m)
      | .fstr m => .ok (some m)
      | .fbad => .error (.badParameterValue "Incorrect type supplied for filter parameter")
    else .ok none

/-- Clause application of `apply_request_filter` after the `filter`
parameter is parsed (lines 561-584): the structured terms and date range go
into the conjunction, or into the post-filter bucket when the service is in
post-filter mode. -/
def requestFilterCore (env : Env) (s : SearchQuery)
    (filters : Option (List (String × List String))) : SearchQuery :=
  let filtersNonempty :=
    match filters with
    | some m => !m.isEmpty
    | none => false
  if !env.filterByPostFilter then
    let s :=
      match filters with
      | some m =>
        if !m.isEmpty then
          if env.filterAggregationsFlag then
            { s with query := addMustList (filter_terms env m) s.query }
          else
            { s with query := addMust (.rawFilters m) s.query }
        else s
      | none => s
    if truthyS s.args.created_from || truthyS s.args.created_to then
      { s with query := addMust (versioncreated_range env s.args) s.query }
    else s
  else
    if filtersNonempty || truthyS s.args.created_from || truthyS s.args.created_to then
      let pf : List Clause := []
      let pf :=
        match filters with
        | some m =>
          if !m.isEmpty then
            if env.filterAggregationsFlag then pf ++ filter_terms env m
            else pf ++ [.rawFilters m]
          else pf
        | none => pf
      let pf :=
        if truthyS s.args.created_from || truthyS s.args.created_to then
          pf ++ [versioncreated_range env s.args]
        else pf
      { s with source := { s.source with post_filter := some pf } }
    else s

/-- Embeds `apply_request_filter` (lines 542-584): the free-text clause,
then the structured `filter` parameter and the creation-date range. -/
def apply_request_filter (env : Env) (s : SearchQuery) : Except SearchError SearchQuery :=
  let s :=
    if truthyS s.args.q then
      { s with query := addMust (query_string env (s.args.q.getD "")
          (if truthyS s.args.default_operator then s.args.default_operator.getD "AND" else "AND")) s.query }
    else s
  match parseFilterParam s.args with
  | .error e => .error e
  | .ok filters => .ok (requestFilterCore env s filters)

/-- The `minimum_should_match = 1` assignment closing `apply_filters`
(lines 208-209), applied whenever any `should` clause exists. -/
def setMinShould (s : SearchQuery) : SearchQuery :=
  match s.query with
  | .boolLists m mn sh _ =>
    if sh.length ≠ 0 then { s with query := .boolLists m mn sh (some 1) } else s
  | _ => s

/-- Embeds `apply_filters` (lines 197-209): the ordered filter stages, then
`minimum_should_match = 1` whenever any `should` clause exists. -/
def apply_filters (env : Env) (s : SearchQuery) : Except SearchError SearchQuery :=
  let s := apply_section_filter env s
  let s := apply_company_filter env s
  let s := apply_time_limit_filter env s
  let s := apply_products_filter env s
  match apply_request_filter env s with
  | .error e => .error e
  | .ok s => .ok (setMinShould s)

/-- Embeds `gen_source_from_search` (lines 211-230): serializes the context
into `search.source`, aborts with the page-limit error when the offset
reaches 1000, attaches aggregations on the first page unless suppressed, and
attaches the highlight specification when present. -/
def gen_source_from_search (env : Env) (s : SearchQuery) : Except SearchError SearchQuery :=
  let src := s.source
  let src :=
    { src with
      query := some s.query,
      sort := some (if truthyS s.args.sort then s.args.sort.getD "" else default_sort),
      size := some (match s.args.size with
        | some n => if n == 0 then default_page_size else n
        | none => default_page_size),
      from_ := some (s.args.from_.getD 0) }
  if s.args.from_.getD 0 ≥ 1000 then .error (.limitExceeded "Page limit exceeded")
  else
    let src :=
      if s.args.from_.getD 0 == 0 && s.args.aggs then { src with aggs := some env.wireAggs }
      else src
    let src :=
      match s.highlight with
      | some h => { src with highlight := some h }
      | none => src
    .ok { s with source := src }

/-- The eve internal request built by `get_internal_request` (lines
232-244); equality of these values models byte-identical serialized
requests, since `json.dumps` of equal dicts is identical. -/
structure InternalReq where
  source : Source
  projections : Option (List String)
deriving DecidableEq

/-- Embeds `get_internal_request` (lines 232-244). -/
def get_internal_request (s : SearchQuery) : InternalReq :=
  { source := s.source,
    projections := if s.projections.isEmpty then none else some s.projections }

/-- Field access on a document for term and lookup evaluation. -/
def docField (d : Doc) : String → Option String
  | "_id" => some d._id
  | "type" => some d.type_
  | "_type" => some d._type
  | "nextversion" => d.nextversion
  | "original_id" => d.original_id
  | _ => none

/-- Field-presence test for `exists` clauses. -/
def fieldPresent (d : Doc) : String → Bool
  | "_id" => true
  | "type" => true
  | "_type" => true
  | "nextversion" => d.nextversion.isSome
  | "original_id" => d.original_id.isSome
  | _ => false

/-- Modelled from the spec: evaluation of one boolean-query clause against a
document by the external index (assumed to support term, terms, exists,
query-string and range clauses); opaque clause kinds are decided by the
matchers the environment supplies. -/
def evalClause (env : Env) (d : Doc) : Clause → Bool
  | .termField f v => docField d f == some v
  | .termsField f vs =>
    if f == "products.code" then d.products_code.any (fun c => vs.contains c)
    else
      match docField d f with
      | some x => vs.contains x
      | none => false
  | .existsField f => fieldPresent d f
  | .constantScoreExistsField f => fieldPresent d f
  | .queryStringClause q _ _ => env.matchQS q d
  | .rangeGte _ expr => env.rangeGteMatch expr d
  | .rangeVersioncreated g l => env.rangeVCMatch g l d
  | .rawFilters m => env.rawFiltersMatch m d

/-- Modelled from the spec: boolean-query evaluation by the external index —
all `must` clauses hold, no `must_not` clause holds, and at least
`minimum_should_match` of the `should` clauses hold when that bound is set. -/
def evalQuery (env : Env) (d : Doc) : Query → Bool
  | .boolLists m mn sh msm =>
    m.all (evalClause env d) && mn.all (fun c => !evalClause env d c) &&
      (match msm with
       | some k => k ≤ (sh.filter (evalClause env d)).length
       | none => true)
  | .boolMustSingle c => evalClause env d c

/-- A document satisfies the endpoint lookup when every bound field equals
the bound value. -/
def lookupMatch (lookup : Lookup) (d : Doc) : Bool :=
  lookup.all (fun kv => docField d kv.1 == some kv.2)

/-- Modelled from the spec: the index-execution collaborator behind
`internal_get` (line 175), which is out of core scope — it evaluates the
compiled boolean query merged with the lookup over the document store and
applies from/size pagination. -/
def internal_get (env : Env) (src : Source) (lookup : Lookup) : List Doc :=
  let matched := env.store.filter (fun d =>
    evalQuery env d (src.query.getD (.boolLists [] [] [] none)) && lookupMatch lookup d)
  (matched.drop (src.from_.getD 0)).take (src.size.getD default_page_size)

/-- Modelled from the spec: `find_one` of the backing service resolves a
document by id in the store. -/
def find_one (env : Env) (docId : String) : Option Doc :=
  env.store.find? (fun d => d._id == docId)

/-- The ad-hoc index request `get_last_version` builds to find the chain
head by `original_id` (lines 137-152): one result, documents whose
`original_id` matches and which have no `nextversion`. -/
def lastVersionSource (oid : String) : Source :=
  { query := some (.boolLists [.termField "original_id" oid]
      [.existsField "nextversion"] [] none),
    sort := none, size := some 1, from_ := none, aggs := none,
    highlight := none, post_filter := none }

/-- Embeds `get_last_version` (lines 130-173) with explicit recursion fuel:
the source recursion is unbounded (it has no cycle guard), so `none` marks
an execution that does not complete within the given fuel. On success the
resolved document is returned together with the list of index requests the
resolver dispatched. -/
def get_last_version : Nat → Env → Doc → Option (Doc × List Source)
  | 0, _, _ => none
  | fuel + 1, env, doc =>
    if !truthyS doc.nextversion then some (doc, [])
    else
      let elasticStep : Option Doc × List Source :=
        if truthyS doc.original_id then
          let src := lastVersionSource (doc.original_id.getD "")
          match internal_get env src [] with
          | r :: _ => (some r, [src])
          | [] => (none, [src])
        else (none, [])
      match elasticStep with
      | (some r, tr) => some (r, tr)
      | (none, tr) =>
        match find_one env (doc.nextversion.getD "") with
        | some next =>
          match get_last_version fuel env next with
          | some (r, tr2) => some (r, tr ++ tr2)
          | none => none
        | none => some (doc, tr)

/-- Fuel-bounded test that the version-chain walk of `get_last_version`
reaches a terminal case (chain head, elastic hit, or dangling link) within
the given number of hops. -/
def walkEndsWithin (env : Env) : Nat → Doc → Bool
  | 0, d => !truthyS d.nextversion
  | n + 1, d =>
    if !truthyS d.nextversion then true
    else if truthyS d.original_id &&
        !(internal_get env (lastVersionSource (d.original_id.getD "")) []).isEmpty then true
    else
      match find_one env (d.nextversion.getD "") with
      | some next => walkEndsWithin env n next
      | none => true

/-- The proposition that `get_last_version` never completes on a document,
whatever fuel it is granted: the embedding of a non-terminating run of the
source recursion. -/
def getLastVersionDiverges (env : Env) (d : Doc) : Prop :=
  ∀ n, get_last_version n env d = none

/-- The documents-plus-metadata response surfaced to the caller
(`_items` and the HATEOAS `_links.matched_ids` entry). -/
structure Response where
  docs : List Doc
  matchedIds : Option (List String)
deriving DecidableEq

/-- Result of one service invocation: a response, a pipeline error, or
exhaustion of the recursion fuel (a run of the source that does not
terminate within the granted bound). -/
inductive RunResult
  | ok : Response → RunResult
  | err : SearchError → RunResult
  | outOfFuel : RunResult
deriving DecidableEq

/-- Observable outcome of one call to the service: the result, the compiled
index requests produced by `gen_source_from_search`/`get_internal_request`
in order, every index request actually dispatched (compiled requests plus
the chain resolver's ad-hoc lookups) in order, and the service-instance
`_matched_ids` state after the call. -/
structure Outcome where
  result : RunResult
  compiled : List Source
  dispatched : List Source
  matchedIds : List String
deriving DecidableEq

/-- Embeds the non-all-versions branch of `get` (lines 77-84): prefill,
validate, filter, compile, dispatch. -/
def runSingleSearch (env : Env) (s : SearchQuery) (lookup : Option Lookup)
    (st : List String) : Outcome :=
  match prefill_search_query env s lookup with
  | .error e => ⟨.err e, [], [], st⟩
  | .ok s =>
    match validate_request s with
    | .error e => ⟨.err e, [], [], st⟩
    | .ok _ =>
      match apply_filters env s with
      | .error e => ⟨.err e, [], [], st⟩
      | .ok s =>
        match gen_source_from_search env s with
        | .error e => ⟨.err e, [], [], st⟩
        | .ok s =>
          let ireq := get_internal_request s
          let docs := internal_get env ireq.source s.lookup
          ⟨.ok ⟨docs, none⟩, [ireq.source], [ireq.source], st⟩

/-- Resolution loop of `_search_all_versions` (lines 119-121): resolve each
matched document to its chain head, collecting head ids and the resolver's
dispatched lookups in order. -/
def resolveAll (fuel : Nat) (env : Env) : List Doc → Option (List String × List Source)
  | [] => some ([], [])
  | d :: ds =>
    match get_last_version fuel env d with
    | none => none
    | some (r, tr) =>
      match resolveAll fuel env ds with
      | none => none
      | some (rs, trs) => some (r._id :: rs, tr ++ trs)

/-- Embeds `_search_all_versions` (lines 98-128): set `ignore_latest`, run
the pipeline with the elevated internal page (size 1000, offset 0), record
matched ids, resolve chain heads, then re-run with the boolean query
replaced by a single id-terms clause and the caller's own pagination. -/
def search_all_versions (fuel : Nat) (env : Env) (s : SearchQuery)
    (lookup : Option Lookup) (st : List String) : Outcome :=
  let s := { s with args := { s.args with ignore_latest := true } }
  match prefill_search_query env s lookup with
  | .error e => ⟨.err e, [], [], st⟩
  | .ok s =>
    match validate_request s with
    | .error e => ⟨.err e, [], [], st⟩
    | .ok _ =>
      match apply_filters env s with
      | .error e => ⟨.err e, [], [], st⟩
      | .ok s =>
        match gen_source_from_search env s with
        | .error e => ⟨.err e, [], [], st⟩
        | .ok s =>
          let s := { s with source := { s.source with size := some 1000, from_ := some 0 } }
          let ireq1 := get_internal_request s
          let docs1 := internal_get env ireq1.source s.lookup
          let matched := docs1.map (fun d => d._id)
          match resolveAll fuel env docs1 with
          | none => ⟨.outOfFuel, [ireq1.source], [ireq1.source], matched⟩
          | some (nextIds, lookupTrace) =>
            let s := { s with query := .boolMustSingle (.termsField "_id" nextIds) }
            match gen_source_from_search env s with
            | .error e => ⟨.err e, [ireq1.source], [ireq1.source] ++ lookupTrace, matched⟩
            | .ok s =>
              let ireq2 := get_internal_request s
              let docs2 := internal_get env ireq2.source s.lookup
              ⟨.ok ⟨docs2, none⟩, [ireq1.source, ireq2.source],
                [ireq1.source] ++ lookupTrace ++ [ireq2.source], matched⟩

/-- Embeds `get` (lines 71-84): build a fresh context, prefill the args, and
run either the all-versions orchestrator or the single search. -/
def serviceGet (fuel : Nat) (env : Env) (req : Option Req) (lookup : Option Lookup)
    (st : List String) : Outcome :=
  let s := prefill_search_args initSearchQuery req
  if s.args.all_versions then search_all_versions fuel env s lookup st
  else runSingleSearch env s lookup st

/-- Embeds `on_fetched` (lines 86-96): attach the matched version ids to the
response links when present, and clear the instance state. -/
def on_fetched (st : List String) (resp : Response) : Response × List String :=
  if st.isEmpty then (resp, st)
  else ({ resp with matchedIds := some st }, [])

/-- One full endpoint call as the framework performs it: `get` followed by
the `on_fetched` hook on a successful response. -/
def searchEndpoint (fuel : Nat) (env : Env) (req : Option Req) (lookup : Option Lookup)
    (st : List String) : Outcome :=
  let o := serviceGet fuel env req lookup st
  match o.result with
  | .ok resp =>
    let p := on_fetched o.matchedIds resp
    { o with result := .ok p.1, matchedIds := p.2 }
  | _ => o

/-- The prefilled request context exactly as `get` computes it on either
branch: the all-versions branch first sets `ignore_latest`. -/
def requestContext (env : Env) (req : Option Req) (lookup : Option Lookup) :
    Except SearchError SearchQuery :=
  let s := prefill_search_args initSearchQuery req
  let s := if s.args.all_versions then { s with args := { s.args with ignore_latest := true } } else s
  prefill_search_query env s lookup

/-- Unwrap a successful pipeline state, with the fresh context as the
irrelevant default. -/
def unwrapS (x : Except SearchError SearchQuery) : SearchQuery :=
  match x with
  | .ok s => s
  | .error _ => initSearchQuery

/-- An environment with no users, no store and every collaborator empty;
concrete scenarios below override the relevant fields. -/
def trivialEnv : Env :=
  { currentUser := none, findUser := fun _ => none, findCompany := fun _ => none,
    productsByNavigation := fun _ _ => [], productById := fun _ _ _ => [],
    productsByCompany := fun _ _ _ => [],
    sectionMust := fun _ => [], sectionMustNot := fun _ => [],
    sectionShould := fun _ => [],
    companyTypes := [], wireTimeLimitDays := none, wireAggs := "WIRE_AGGS",
    analyzeWildcard := false, filterByPostFilter := false,
    filterAggregationsFlag := true,
    shouldHighlightFlag := false, aggFieldOf := fun k => k,
    localDate := fun d _ _ => d, endDate := fun d _ => d,
    matchQS := fun _ _ => false, rangeGteMatch := fun _ _ => false,
    rangeVCMatch := fun _ _ _ => false, rawFiltersMatch := fun _ _ => false,
    store := [] }

section PipelineLemmas

variable {env : Env} {s s' : SearchQuery} {lookup : Option Lookup}

lemma prefill_search_lookup_query (l : Option Lookup) :
    (prefill_search_lookup s l).query = s.query := rfl

lemma prefill_search_page_query : (prefill_search_page s).query = s.query := rfl

lemma prefill_search_page_args_core :
    (prefill_search_page s).args.ignore_latest = s.args.ignore_latest ∧
    (prefill_search_page s).args.user = s.args.user ∧
    (prefill_search_page s).args.from_ = some (s.args.from_.getD 0) := by
  unfold prefill_search_page
  by_cases h : truthyS s.args.sort = true <;> simp [h]

lemma prefill_search_user_query : (prefill_search_user env s).query = s.query := by
  simp only [prefill_search_user]
  split <;> rfl

lemma prefill_search_user_args : (prefill_search_user env s).args = s.args := by
  simp only [prefill_search_user]
  split <;> rfl

lemma prefill_search_company_query :
    (prefill_search_company env s).query = s.query := rfl

lemma prefill_search_section_query : (prefill_search_section s).query = s.query := rfl

lemma prefill_search_navigation_ok (h : prefill_search_navigation s = .ok s') :
    s'.query = s.query ∧ s'.args = s.args ∧ s'.user = s.user ∧
    s'.is_admin = s.is_admin ∧ s'.company = s.company := by
  unfold prefill_search_navigation at h
  split at h
  · exact (Except.ok.inj h) ▸ ⟨rfl, rfl, rfl, rfl, rfl⟩
  · split at h
    · split at h
      · exact (Except.ok.inj h) ▸ ⟨rfl, rfl, rfl, rfl, rfl⟩
      · exact (Except.ok.inj h) ▸ ⟨rfl, rfl, rfl, rfl, rfl⟩
      · exact absurd h (by simp)
    · exact (Except.ok.inj h) ▸ ⟨rfl, rfl, rfl, rfl, rfl⟩

lemma parseRequestedProducts_ok {t : SearchQuery}
    (h : parseRequestedProducts s = .ok t) :
    t.query = s.query ∧ t.args = s.args ∧ t.user = s.user ∧
    t.is_admin = s.is_admin ∧ t.company = s.company ∧
    t.navigation_ids = s.navigation_ids ∧ t.section_ = s.section_ := by
  unfold parseRequestedProducts at h
  split at h
  · split at h
    · split at h
      · exact (Except.ok.inj h) ▸ ⟨rfl, rfl, rfl, rfl, rfl, rfl, rfl⟩
      · exact (Except.ok.inj h) ▸ ⟨rfl, rfl, rfl, rfl, rfl, rfl, rfl⟩
      · exact absurd h (by simp)
    · exact (Except.ok.inj h) ▸ ⟨rfl, rfl, rfl, rfl, rfl, rfl, rfl⟩
  · exact (Except.ok.inj h) ▸ ⟨rfl, rfl, rfl, rfl, rfl, rfl, rfl⟩

lemma assignProducts_core :
    (assignProducts env s).query = s.query ∧
    (assignProducts env s).args = s.args ∧
    (assignProducts env s).user = s.user ∧
    (assignProducts env s).is_admin = s.is_admin ∧
    (assignProducts env s).company = s.company := by
  simp only [assignProducts]
  split
  · split
    · exact ⟨rfl, rfl, rfl, rfl, rfl⟩
    · split
      · exact ⟨rfl, rfl, rfl, rfl, rfl⟩
      · exact ⟨rfl, rfl, rfl, rfl, rfl⟩
  · split
    · split
      · exact ⟨rfl, rfl, rfl, rfl, rfl⟩
      · exact ⟨rfl, rfl, rfl, rfl, rfl⟩
    · exact ⟨rfl, rfl, rfl, rfl, rfl⟩

lemma prefill_search_products_ok (h : prefill_search_products env s = .ok s') :
    s'.query = s.query ∧ s'.args = s.args ∧ s'.user = s.user ∧
    s'.is_admin = s.is_admin ∧ s'.company = s.company := by
  unfold prefill_search_products at h
  rcases h1 : parseRequestedProducts s with e | t
  · rw [h1] at h; exact absurd h (by simp)
  · rw [h1] at h
    have hp := parseRequestedProducts_ok h1
    have ha := @assignProducts_core env t
    have hs : s' = assignProducts env t := (Except.ok.inj h).symm
    rw [hs]
    exact ⟨ha.1.trans hp.1, ha.2.1.trans hp.2.1, ha.2.2.1.trans hp.2.2.1,
      ha.2.2.2.1.trans hp.2.2.2.1, ha.2.2.2.2.trans hp.2.2.2.2.1⟩

lemma prefill_search_items_query_true {m mn sh : List Clause} {msm : Option Nat}
    (hig : s.args.ignore_latest = true) (hq : s.query = .boolLists m mn sh msm) :
    (prefill_search_items s).query =
      .boolLists (m ++ [itemsTypeClause]) (mn ++ [compositeClause]) sh msm := by
  unfold prefill_search_items
  rw [hq]
  simp [hig]

lemma prefill_search_items_query_false {m mn sh : List Clause} {msm : Option Nat}
    (hig : s.args.ignore_latest = false) (hq : s.query = .boolLists m mn sh msm) :
    (prefill_search_items s).query =
      .boolLists (m ++ [itemsTypeClause]) (mn ++ [compositeClause] ++ [nextversionClause]) sh msm := by
  unfold prefill_search_items
  rw [hq]
  simp [hig]

lemma prefill_search_items_core :
    (prefill_search_items s).user = s.user ∧
    (prefill_search_items s).is_admin = s.is_admin ∧
    (prefill_search_items s).company = s.company ∧
    (prefill_search_items s).args = s.args := by
  unfold prefill_search_items
  split
  · exact ⟨rfl, rfl, rfl, rfl⟩
  · exact ⟨rfl, rfl, rfl, rfl⟩

lemma prefill_search_highlights_core :
    (prefill_search_highlights env s).query = s.query ∧
    (prefill_search_highlights env s).user = s.user ∧
    (prefill_search_highlights env s).is_admin = s.is_admin ∧
    (prefill_search_highlights env s).company = s.company ∧
    (prefill_search_highlights env s).args = s.args ∧
    (prefill_search_highlights env s).products = s.products := by
  simp only [prefill_search_highlights]
  by_cases h : (env.shouldHighlightFlag && truthyS s.args.q) = true <;> simp [h]

/-- Decomposition of a successful prefill into its stages: the two fallible
stages succeed, and the result is the item seeding plus highlight pass over
their output. -/
lemma prefill_search_query_ok_decomp
    (h : prefill_search_query env s lookup = .ok s') :
    ∃ s6 s7,
      prefill_search_navigation
        (prefill_search_section (prefill_search_company env
          (prefill_search_user env (prefill_search_page
            (prefill_search_lookup s lookup))))) = .ok s6 ∧
      prefill_search_products env s6 = .ok s7 ∧
      s' = prefill_search_highlights env (prefill_search_items s7) := by
  unfold prefill_search_query at h
  simp only [bind, Except.bind] at h
  rcases h6 : prefill_search_navigation
      (prefill_search_section (prefill_search_company env
        (prefill_search_user env (prefill_search_page
          (prefill_search_lookup s lookup))))) with e | s6
  · rw [h6] at h; simp at h
  · rw [h6] at h
    dsimp only at h
    rcases h7 : prefill_search_products env s6 with e | s7
    · rw [h7] at h; simp at h
    · rw [h7] at h
      dsimp only at h
      simp only [pure, Except.pure] at h
      exact ⟨s6, s7, rfl, h7, (Except.ok.inj h).symm⟩

end PipelineLemmas

/-- Invariant that a boolean query in pipeline-built form carries the two
seed clauses of `prefill_search_items`. -/
def hasSeeds (q : Query) : Prop :=
  compositeClause ∈ mustNotListOf q ∧ itemsTypeClause ∈ mustListOf q

section SeedLemmas

variable {env : Env} {s s' : SearchQuery} {q : Query} {c : Clause} {cs : List Clause}

lemma hasSeeds_addMust (h : hasSeeds q) : hasSeeds (addMust c q) := by
  cases q with
  | boolLists m mn sh msm => exact ⟨h.1, List.mem_append_left _ h.2⟩
  | boolMustSingle c0 => exact h

lemma hasSeeds_addMustList (h : hasSeeds q) : hasSeeds (addMustList cs q) := by
  cases q with
  | boolLists m mn sh msm => exact ⟨h.1, List.mem_append_left _ h.2⟩
  | boolMustSingle c0 => exact h

lemma hasSeeds_addMustNot (h : hasSeeds q) : hasSeeds (addMustNot c q) := by
  cases q with
  | boolLists m mn sh msm => exact ⟨List.mem_append_left _ h.1, h.2⟩
  | boolMustSingle c0 => exact h

lemma hasSeeds_addShould (h : hasSeeds q) : hasSeeds (addShould c q) := by
  cases q with
  | boolLists m mn sh msm => exact ⟨h.1, h.2⟩
  | boolMustSingle c0 => exact h

lemma hasSeeds_applyCompanyTypes (cts : List CompanyType) (ct : String)
    (h : hasSeeds q) : hasSeeds (applyCompanyTypes cts ct q) := by
  induction cts generalizing q with
  | nil => exact h
  | cons c0 rest ih =>
    unfold applyCompanyTypes
    apply ih
    split
    · split
      · split
        · exact hasSeeds_addMustNot (hasSeeds_addMust h)
        · exact hasSeeds_addMust h
      · split
        · exact hasSeeds_addMustNot h
        · exact h
    · exact h

lemma hasSeeds_section_filter (h : hasSeeds s.query) :
    hasSeeds (apply_section_filter env s).query := by
  unfold apply_section_filter
  split
  next m mn sh msm heq =>
    rw [heq] at h
    exact ⟨List.mem_append_left _ h.1, List.mem_append_left _ h.2⟩
  next => exact h

lemma hasSeeds_company_filter (h : hasSeeds s.query) :
    hasSeeds (apply_company_filter env s).query := by
  unfold apply_company_filter
  split
  · exact h
  · split
    · exact h
    · split
      · exact h
      · split
        · exact h
        · exact hasSeeds_applyCompanyTypes _ _ h

lemma hasSeeds_time_limit_filter (h : hasSeeds s.query) :
    hasSeeds (apply_time_limit_filter env s).query := by
  unfold apply_time_limit_filter
  split
  · exact h
  · split
    · exact h
    · split
      · exact h
      · split
        · exact h
        · split
          · exact h
          · exact hasSeeds_addMust h

lemma hasSeeds_product_filter (args : Args) (p : Product) (h : hasSeeds q) :
    hasSeeds (apply_product_filter env args p q) := by
  simp only [apply_product_filter]
  repeat' split
  all_goals first | exact h | exact hasSeeds_addShould h

lemma hasSeeds_productFilters (args : Args) (ps : List Product) (h : hasSeeds q) :
    hasSeeds (applyProductFilters env args ps q) := by
  induction ps generalizing q with
  | nil => exact h
  | cons p rest ih =>
    unfold applyProductFilters
    exact ih (hasSeeds_product_filter args p h)

lemma hasSeeds_products_filter (h : hasSeeds s.query) :
    hasSeeds (apply_products_filter env s).query := by
  simp only [apply_products_filter]
  split
  · exact h
  · split
    · exact hasSeeds_productFilters _ _ (hasSeeds_addShould h)
    · exact hasSeeds_productFilters _ _ h

lemma hasSeeds_requestFilterCore (filters : Option (List (String × List String)))
    (h : hasSeeds s.query) : hasSeeds (requestFilterCore env s filters).query := by
  simp only [requestFilterCore]
  repeat' split
  all_goals first
    | exact h
    | exact hasSeeds_addMust h
    | exact hasSeeds_addMustList h
    | exact hasSeeds_addMust (hasSeeds_addMustList h)

lemma hasSeeds_request_filter (h : hasSeeds s.query)
    (hok : apply_request_filter env s = .ok s') : hasSeeds s'.query := by
  simp only [apply_request_filter] at hok
  rcases hp : parseFilterParam
      (if truthyS s.args.q then
        { s with query := addMust (query_string env (s.args.q.getD "")
            (if truthyS s.args.default_operator then s.args.default_operator.getD "AND" else "AND")) s.query }
      else s).args with e | filters
  · rw [hp] at hok; simp at hok
  · rw [hp] at hok
    dsimp only at hok
    have hs' := Except.ok.inj hok
    rw [← hs']
    by_cases hq : truthyS s.args.q = true
    · simp only [hq, if_true]
      exact hasSeeds_requestFilterCore _ (hasSeeds_addMust h)
    · simp only [hq, if_false]
      exact hasSeeds_requestFilterCore _ h

lemma hasSeeds_setMinShould (h : hasSeeds s.query) :
    hasSeeds (setMinShould s).query := by
  unfold setMinShould
  split
  next m mn sh msm heq =>
    split
    · rw [heq] at h; exact ⟨h.1, h.2⟩
    · exact h
  next => exact h

lemma hasSeeds_apply_filters (h : hasSeeds s.query)
    (hok : apply_filters env s = .ok s') : hasSeeds s'.query := by
  simp only [apply_filters] at hok
  have h4 : hasSeeds (apply_products_filter env (apply_time_limit_filter env
      (apply_company_filter env (apply_section_filter env s)))).query :=
    hasSeeds_products_filter (hasSeeds_time_limit_filter
      (hasSeeds_company_filter (hasSeeds_section_filter h)))
  rcases hr : apply_request_filter env (apply_products_filter env
      (apply_time_limit_filter env (apply_company_filter env
        (apply_section_filter env s)))) with e | t
  · rw [hr] at hok; simp at hok
  · rw [hr] at hok
    dsimp only at hok
    have := Except.ok.inj hok
    rw [← this]
    exact hasSeeds_setMinShould (hasSeeds_request_filter h4 hr)

end SeedLemmas

section CompileLemmas

variable {env : Env} {s s' : SearchQuery} {lookup : Option Lookup} {st : List String}

/-- A successful compile stage records the boolean query verbatim, records
the derived offset, and certifies that the offset is below the ceiling. -/
lemma gen_source_ok_decomp (h : gen_source_from_search env s = .ok s') :
    s'.source.query = some s.query ∧ s'.source.from_ = some (s.args.from_.getD 0) ∧
    s.args.from_.getD 0 < 1000 ∧ s'.query = s.query ∧ s'.args = s.args ∧
    s'.lookup = s.lookup ∧ s'.projections = s.projections := by
  simp only [gen_source_from_search] at h
  by_cases hlim : s.args.from_.getD 0 ≥ 1000
  · simp [hlim] at h
  · simp only [hlim, if_false] at h
    have hb : s.args.from_.getD 0 < 1000 := Nat.lt_of_not_le hlim
    split at h <;> split at h <;>
      exact (Except.ok.inj h) ▸ ⟨rfl, rfl, hb, rfl, rfl, rfl, rfl⟩

/-- The compile stage aborts with the page-limit error whenever the derived
offset reaches 1000. -/
lemma gen_source_limit_err (h : s.args.from_.getD 0 ≥ 1000) :
    gen_source_from_search env s = .error (.limitExceeded "Page limit exceeded") := by
  simp only [gen_source_from_search]
  simp [h]

lemma runSingleSearch_prefill_err {e : SearchError}
    (h : prefill_search_query env s lookup = .error e) :
    runSingleSearch env s lookup st = ⟨.err e, [], [], st⟩ := by
  unfold runSingleSearch
  rw [h]

lemma runSingleSearch_validate_err {s1 : SearchQuery} {e : SearchError}
    (h1 : prefill_search_query env s lookup = .ok s1)
    (h2 : validate_request s1 = .error e) :
    runSingleSearch env s lookup st = ⟨.err e, [], [], st⟩ := by
  unfold runSingleSearch
  rw [h1]
  dsimp only
  rw [h2]

lemma search_all_versions_validate_err {fuel : Nat} {s1 : SearchQuery} {e : SearchError}
    (h1 : prefill_search_query env
      { s with args := { s.args with ignore_latest := true } } lookup = .ok s1)
    (h2 : validate_request s1 = .error e) :
    search_all_versions fuel env s lookup st = ⟨.err e, [], [], st⟩ := by
  simp only [search_all_versions]
  rw [h1]
  dsimp only
  rw [h2]

/-- A non-admin context with no company or no entitled products is rejected
by `validate_request` with an authorization error. -/
lemma validate_request_auth_err {s1 : SearchQuery} (hadm : s1.is_admin = false)
    (hco : s1.company = none ∨ s1.products = []) :
    (s1.company = none ∧
      validate_request s1 = .error (.authorizationError "User does not belong to a company.")) ∨
    (s1.company ≠ none ∧
      validate_request s1 = .error (.authorizationError "Your company does not have any products defined.")) := by
  unfold validate_request
  rcases hc : s1.company with _ | comp
  · left
    refine ⟨rfl, ?_⟩
    simp [hadm]
  · right
    rcases hco with hco | hp
    · exact absurd (hc ▸ hco) (by simp)
    · refine ⟨by simp, ?_⟩
      simp [hadm, hp]

end CompileLemmas

instance {ε α : Type} [DecidableEq ε] [DecidableEq α] : DecidableEq (Except ε α) :=
  fun x y =>
    match x, y with
    | .error a, .error b =>
      if h : a = b then isTrue (by rw [h]) else isFalse (by simp [h])
    | .ok a, .ok b =>
      if h : a = b then isTrue (by rw [h]) else isFalse (by simp [h])
    | .error _, .ok _ => isFalse (by simp)
    | .ok _, .error _ => isFalse (by simp)

/-- Whether a compiled source carries both seed clauses in a pipeline-built
boolean query. -/
def srcSeedsOk (src : Source) : Bool :=
  match src.query with
  | some (.boolLists m mn _ _) =>
    mn.contains compositeClause && m.contains itemsTypeClause
  | _ => false

/-- Scenario for claim C1: a non-admin user of company c1, which is entitled
to exactly the products with ids a and b. -/
def envC1 : Env :=
  { trivialEnv with
    currentUser := some { _id := "u1", user_type := "public", company := some "c1" },
    findCompany := fun cid =>
      if cid == "c1" then some { _id := "c1", company_type := none, archive_access := false }
      else none,
    productsByCompany := fun _ _ _ =>
      [ { _id := "a", sd_product_id := none, query := none },
        { _id := "b", sd_product_id := none, query := none } ] }

/-- Request for claim C1: `requested_products` supplied as the comma-free
string ab, an id that is not among the entitled ids. -/
def reqC1 : Req :=
  { args := { emptyArgs with requested_products := some (.str "ab") },
    projection := [], sort := none }

/-- Claim C1 (code evaluation at the failing input): with entitled product
ids a and b and the raw string parameter `requested_products=ab`, the parsed
`requested_products` list is `[ab]` — an id not among the entitled ids — yet
`validate_request` passes, the pipeline completes, and an index request is
dispatched; no `NotFoundError` is raised, because the source iterates the
characters of the raw string instead of the parsed comma-delimited ids. -/
theorem c1_unentitled_requested_products_string_is_dispatched :
    (unwrapS (requestContext envC1 (some reqC1) none)).requested_products = ["ab"] ∧
    (unwrapS (requestContext envC1 (some reqC1) none)).products.map (fun p => p._id) = ["a", "b"] ∧
    ((["a", "b"] : List String).contains "ab") = false ∧
    validate_request (unwrapS (requestContext envC1 (some reqC1) none)) = .ok () ∧
    (serviceGet 1 envC1 (some reqC1) none []).result = .ok ⟨[], none⟩ ∧
    (serviceGet 1 envC1 (some reqC1) none []).dispatched.length = 1 := by
  refine ⟨?_, ?_, ?_, ?_, ?_, ?_⟩ <;> decide

/-- Scenario for claims C3 and C9 witnesses: an administrator session with
an empty store. -/
def envAdm : Env :=
  { trivialEnv with
    currentUser := some { _id := "adm", user_type := "administrator", company := none } }

/-- An all-versions request with no further parameters. -/
def reqAllVersions : Req :=
  { args := { emptyArgs with all_versions := true }, projection := [], sort := none }

/-- A request asking for neither all versions nor `ignore_latest`. -/
def reqPlain : Req := { args := emptyArgs, projection := [], sort := none }

/-- Claim C3 (counterexample): in an all-versions run two requests are
compiled, and not every compiled request carries the composite-type
exclusion in `must_not` and the item-type inclusion in `must` — the second
pass replaces the boolean query with a bare id-terms clause, so the
invariant fails on it. -/
theorem c3_second_pass_lacks_seed_clauses :
    (serviceGet 1 envAdm (some reqAllVersions) none []).compiled.length = 2 ∧
    ((serviceGet 1 envAdm (some reqAllVersions) none []).compiled.getD 1 emptySource).query =
      some (.boolMustSingle (.termsField "_id" [])) ∧
    ((serviceGet 1 envAdm (some reqAllVersions) none []).compiled.all srcSeedsOk) = false := by
  refine ⟨?_, ?_, ?_⟩ <;> decide

/-- First revision of the chain for the all-versions scenario. -/
def docA8 : Doc :=
  { _id := "a", type_ := "text", _type := "items", nextversion := some "b",
    original_id := none, products_code := [] }

/-- Middle revision of the chain for the all-versions scenario. -/
def docB8 : Doc :=
  { _id := "b", type_ := "text", _type := "items", nextversion := some "c",
    original_id := none, products_code := [] }

/-- Chain head for the all-versions scenario. -/
def docC8 : Doc :=
  { _id := "c", type_ := "text", _type := "items", nextversion := none,
    original_id := none, products_code := [] }

/-- Scenario for claim C8: an administrator session over a store holding one
three-revision chain a→b→c, where the free-text query x matches exactly the
two stale revisions a and b. -/
def envC8 : Env :=
  { trivialEnv with
    currentUser := some { _id := "adm", user_type := "administrator", company := none },
    matchQS := fun q d => q == "x" && (d._id == "a" || d._id == "b"),
    store := [docA8, docB8, docC8] }

/-- Request for claim C8: all versions, free-text query x, page size 7. -/
def reqC8 : Req :=
  { args := { emptyArgs with all_versions := true, q := some "x", size := some 7 },
    projection := [], sort := none }

/-- Claim C8: in all-versions mode with two same-chain documents a and b
both matching the query, the final response contains exactly the chain head
c once, the matched-chain-ids metadata lists both originally matched ids,
the second compiled request's query is only the chain-head-id terms clause
(one entry per matched revision), and that second request carries the
caller's own pagination (offset 0, the requested size 7) rather than the
first pass's internal 1000/0 page; the instance state is cleared after the
ids are surfaced. -/
theorem c8_all_versions_dedups_to_chain_head :
    (searchEndpoint 9 envC8 (some reqC8) none []).result =
      .ok ⟨[docC8], some ["a", "b"]⟩ ∧
    ((searchEndpoint 9 envC8 (some reqC8) none []).compiled.getD 1 emptySource).query =
      some (.boolMustSingle (.termsField "_id" ["c", "c"])) ∧
    ((searchEndpoint 9 envC8 (some reqC8) none []).compiled.getD 0 emptySource).size = some 1000 ∧
    ((searchEndpoint 9 envC8 (some reqC8) none []).compiled.getD 0 emptySource).from_ = some 0 ∧
    ((searchEndpoint 9 envC8 (some reqC8) none []).compiled.getD 1 emptySource).size = some 7 ∧
    ((searchEndpoint 9 envC8 (some reqC8) none []).compiled.getD 1 emptySource).from_ = some 0 ∧
    (searchEndpoint 9 envC8 (some reqC8) none []).matchedIds = [] := by
  refine ⟨?_, ?_, ?_, ?_, ?_, ?_, ?_⟩ <;> decide

/-- One direct-walk step of `get_last_version`: when the document has a
truthy next-version link, no truthy `original_id`, and the link resolves,
the resolver recurses into the linked document with one unit of fuel less. -/
lemma get_last_version_walk_step {env : Env} {d next : Doc} {n : Nat}
    (h1 : truthyS d.nextversion = true) (h2 : truthyS d.original_id = false)
    (h3 : find_one env (d.nextversion.getD "") = some next) :
    get_last_version (n + 1) env d = get_last_version n env next := by
  conv_lhs => rw [get_last_version]
  rw [h1, h2, h3]
  cases hrec : get_last_version n env next with
  | none => simp [hrec]
  | some p => simp [hrec]

lemma some_pair_eq {A B : Type} {a c : A} {b d : B}
    (h : some (a, b) = some (c, d)) : a = c ∧ b = d := by
  injection h with h1
  injection h1 with h2 h3
  exact ⟨h2, h3⟩

lemma get_last_version_head {env : Env} {d : Doc} {n : Nat}
    (h1 : truthyS d.nextversion = false) :
    get_last_version (n + 1) env d = some (d, []) := by
  conv_lhs => rw [get_last_version]
  simp [h1]

lemma get_last_version_elastic_hit {env : Env} {d r : Doc} {rest : List Doc} {n : Nat}
    (h1 : truthyS d.nextversion = true) (h2 : truthyS d.original_id = true)
    (hres : internal_get env (lastVersionSource (d.original_id.getD "")) [] = r :: rest) :
    get_last_version (n + 1) env d =
      some (r, [lastVersionSource (d.original_id.getD "")]) := by
  conv_lhs => rw [get_last_version]
  simp [h1, h2, hres]

lemma get_last_version_elastic_miss_step {env : Env} {d next : Doc} {n : Nat}
    (h1 : truthyS d.nextversion = true) (h2 : truthyS d.original_id = true)
    (hres : internal_get env (lastVersionSource (d.original_id.getD "")) [] = [])
    (hfo : find_one env (d.nextversion.getD "") = some next) :
    get_last_version (n + 1) env d =
      match get_last_version n env next with
      | some (r, tr) => some (r, lastVersionSource (d.original_id.getD "") :: tr)
      | none => none := by
  conv_lhs => rw [get_last_version]
  cases hrec : get_last_version n env next with
  | none => simp [h1, h2, hres, hfo, hrec]
  | some p => simp [h1, h2, hres, hfo, hrec]

lemma get_last_version_elastic_miss_dangling {env : Env} {d : Doc} {n : Nat}
    (h1 : truthyS d.nextversion = true) (h2 : truthyS d.original_id = true)
    (hres : internal_get env (lastVersionSource (d.original_id.getD "")) [] = [])
    (hfo : find_one env (d.nextversion.getD "") = none) :
    get_last_version (n + 1) env d =
      some (d, [lastVersionSource (d.original_id.getD "")]) := by
  conv_lhs => rw [get_last_version]
  simp [h1, h2, hres, hfo]

lemma get_last_version_dangling {env : Env} {d : Doc} {n : Nat}
    (h1 : truthyS d.nextversion = true) (h2 : truthyS d.original_id = false)
    (hfo : find_one env (d.nextversion.getD "") = none) :
    get_last_version (n + 1) env d = some (d, []) := by
  conv_lhs => rw [get_last_version]
  simp [h1, h2, hfo]

/-- Every index request the chain resolver dispatches carries no `from`
key (it pages from offset zero). -/
lemma get_last_version_trace_from {env : Env} :
    ∀ {fuel : Nat} {d r : Doc} {tr : List Source},
      get_last_version fuel env d = some (r, tr) → ∀ src ∈ tr, src.from_ = none := by
  intro fuel
  induction fuel with
  | zero => intro d r tr h; simp [get_last_version] at h
  | succ fuel ih =>
    intro d r tr h
    by_cases h1 : truthyS d.nextversion = false
    · rw [get_last_version_head h1] at h
      obtain ⟨-, rfl⟩ := some_pair_eq h
      simp
    · have h1' : truthyS d.nextversion = true := by
        cases hx : truthyS d.nextversion
        · exact absurd hx h1
        · rfl
      by_cases h2 : truthyS d.original_id = true
      · cases hres : internal_get env (lastVersionSource (d.original_id.getD "")) [] with
        | cons r0 rest =>
          rw [get_last_version_elastic_hit h1' h2 hres] at h
          obtain ⟨-, rfl⟩ := some_pair_eq h
          intro src hsrc
          simp at hsrc
          rw [hsrc]
          rfl
        | nil =>
          cases hfo : find_one env (d.nextversion.getD "") with
          | some next =>
            rw [get_last_version_elastic_miss_step h1' h2 hres hfo] at h
            cases hrec : get_last_version fuel env next with
            | none => rw [hrec] at h; simp at h
            | some p =>
              rw [hrec] at h
              obtain ⟨-, rfl⟩ := some_pair_eq h
              intro src hsrc
              rcases List.mem_cons.mp hsrc with rfl | hsrc
              · rfl
              · exact ih hrec src hsrc
          | none =>
            rw [get_last_version_elastic_miss_dangling h1' h2 hres hfo] at h
            obtain ⟨-, rfl⟩ := some_pair_eq h
            intro src hsrc
            simp at hsrc
            rw [hsrc]
            rfl
      · have h2' : truthyS d.original_id = false := by
          cases hx : truthyS d.original_id
          · rfl
          · exact absurd hx h2
        cases hfo : find_one env (d.nextversion.getD "") with
        | some next =>
          rw [get_last_version_walk_step h1' h2' hfo] at h
          exact ih h
        | none =>
          rw [get_last_version_dangling h1' h2' hfo] at h
          obtain ⟨-, rfl⟩ := some_pair_eq h
          simp

/-- Every index request dispatched by the resolution loop of the
all-versions orchestrator carries no `from` key. -/
lemma resolveAll_trace_from {fuel : Nat} {env : Env} :
    ∀ {docs : List Doc} {ids : List String} {trs : List Source},
      resolveAll fuel env docs = some (ids, trs) → ∀ src ∈ trs, src.from_ = none := by
  intro docs
  induction docs with
  | nil =>
    intro ids trs h
    unfold resolveAll at h
    obtain ⟨-, rfl⟩ := some_pair_eq h
    simp
  | cons d rest ih =>
    intro ids trs h
    unfold resolveAll at h
    rcases hg : get_last_version fuel env d with _ | ⟨r0, tr0⟩
    · rw [hg] at h; simp at h
    · rw [hg] at h
      dsimp only at h
      rcases hr : resolveAll fuel env rest with _ | ⟨ids0, trs0⟩
      · rw [hr] at h; simp at h
      · rw [hr] at h
        dsimp only at h
        obtain ⟨-, rfl⟩ := some_pair_eq h
        intro src hsrc
        rcases List.mem_append.mp hsrc with hsrc | hsrc
        · exact get_last_version_trace_from hg src hsrc
        · exact ih hr src hsrc

/-- One half of the cyclic chain used against claim C6. -/
def cycDocA : Doc :=
  { _id := "a", type_ := "text", _type := "items", nextversion := some "b",
    original_id := none, products_code := [] }

/-- The other half of the cyclic chain used against claim C6. -/
def cycDocB : Doc :=
  { _id := "b", type_ := "text", _type := "items", nextversion := some "a",
    original_id := none, products_code := [] }

/-- A store whose two documents point at each other through `nextversion`. -/
def envCyc : Env := { trivialEnv with store := [cycDocA, cycDocB] }

lemma cyc_diverges_pair (n : Nat) :
    get_last_version n envCyc cycDocA = none ∧
    get_last_version n envCyc cycDocB = none := by
  induction n with
  | zero => exact ⟨rfl, rfl⟩
  | succ n ih =>
    constructor
    · rw [@get_last_version_walk_step envCyc cycDocA cycDocB n (by decide) (by decide) (by decide)]
      exact ih.2
    · rw [@get_last_version_walk_step envCyc cycDocB cycDocA n (by decide) (by decide) (by decide)]
      exact ih.1

/-- Claim C6 (counterexample): on the two-document cycle a→b→a, whose
documents carry no `original_id`, `get_last_version` never completes — the
source recursion has no cycle guard, so it does not terminate (in Python it
eventually dies with a `RecursionError` rather than returning a document). -/
theorem c6_cyclic_chain_diverges : getLastVersionDiverges envCyc cycDocA :=
  fun n => (cyc_diverges_pair n).1

/-- Claim C6 (amended): whenever the next-version walk from the input
document reaches a terminal case — a chain head, a successful original-id
index lookup, or a dangling link — within `n` hops, `get_last_version`
completes with fuel `n + 1` and returns a document; the embedding has no
error outcome, matching the source, which raises nothing on any completed
run. -/
theorem c6_bounded_walk_terminates (env : Env) (n : Nat) (d : Doc)
    (h : walkEndsWithin env n d = true) :
    ∃ r tr, get_last_version (n + 1) env d = some (r, tr) := by
  induction n generalizing d with
  | zero =>
    unfold walkEndsWithin at h
    have h' : truthyS d.nextversion = false := by simpa using h
    refine ⟨d, [], ?_⟩
    conv_lhs => rw [get_last_version]
    simp [h']
  | succ n ih =>
    unfold walkEndsWithin at h
    by_cases h1 : truthyS d.nextversion = false
    · refine ⟨d, [], ?_⟩
      conv_lhs => rw [get_last_version]
      simp [h1]
    · have h1' : truthyS d.nextversion = true := by
        cases hx : truthyS d.nextversion
        · exact absurd hx h1
        · rfl
      simp only [h1', Bool.not_true, Bool.false_eq_true, if_false] at h
      by_cases h2 : truthyS d.original_id = true
      · cases hres : internal_get env (lastVersionSource (d.original_id.getD "")) [] with
        | nil =>
          simp only [h2, hres, List.isEmpty_nil, Bool.not_true, Bool.and_false,
            Bool.false_eq_true, if_false] at h
          cases hfo : find_one env (d.nextversion.getD "") with
          | none =>
            refine ⟨d, [lastVersionSource (d.original_id.getD "")], ?_⟩
            conv_lhs => rw [get_last_version]
            simp [h1', h2, hres, hfo]
          | some next =>
            rw [hfo] at h
            obtain ⟨r, tr, hrec⟩ := ih next h
            refine ⟨r, lastVersionSource (d.original_id.getD "") :: tr, ?_⟩
            conv_lhs => rw [get_last_version]
            simp [h1', h2, hres, hfo, hrec]
        | cons r rest =>
          refine ⟨r, [lastVersionSource (d.original_id.getD "")], ?_⟩
          conv_lhs => rw [get_last_version]
          simp [h1', h2, hres]
      · have h2' : truthyS d.original_id = false := by
          cases hx : truthyS d.original_id
          · rfl
          · exact absurd hx h2
        simp only [h2', Bool.false_and, Bool.false_eq_true, if_false] at h
        cases hfo : find_one env (d.nextversion.getD "") with
        | none =>
          refine ⟨d, [], ?_⟩
          conv_lhs => rw [get_last_version]
          simp [h1', h2', hfo]
        | some next =>
          rw [hfo] at h
          obtain ⟨r, tr, hrec⟩ := ih next h
          refine ⟨r, tr, ?_⟩
          rw [get_last_version_walk_step h1' h2' hfo, hrec]

/-- An acyclic three-revision store for the C6 witness. -/
def envWalk : Env := { trivialEnv with store := [docA8, docB8, docC8] }

/-- Witness for the amended claim C6: the walk a→b→c ends within two hops,
and `get_last_version` with fuel three completes on it. -/
theorem c6_bounded_walk_terminates_witness :
    walkEndsWithin envWalk 2 docA8 = true ∧
    ∃ r tr, get_last_version 3 envWalk docA8 = some (r, tr) :=
  ⟨by decide, c6_bounded_walk_terminates envWalk 2 docA8 (by decide)⟩

/-- Claim C7: a document with a truthy next-version link that dangles (the
linked document is missing from the store) and whose original-id index
lookup, if attempted, returns nothing, is returned unchanged by
`get_last_version` — no error is raised. -/
theorem c7_dangling_link_returns_input (env : Env) (d : Doc) (n : Nat)
    (h1 : truthyS d.nextversion = true)
    (h2 : find_one env (d.nextversion.getD "") = none)
    (h3 : truthyS d.original_id = true →
      internal_get env (lastVersionSource (d.original_id.getD "")) [] = []) :
    ∃ tr, get_last_version (n + 1) env d = some (d, tr) := by
  by_cases ho : truthyS d.original_id = true
  · refine ⟨[lastVersionSource (d.original_id.getD "")], ?_⟩
    conv_lhs => rw [get_last_version]
    simp [h1, ho, h3 ho, h2]
  · have ho' : truthyS d.original_id = false := by
      cases hx : truthyS d.original_id
      · rfl
      · exact absurd hx ho
    refine ⟨[], ?_⟩
    conv_lhs => rw [get_last_version]
    simp [h1, ho', h2]

lemma stage5_args_ignore (env : Env) (s : SearchQuery) (lookup : Option Lookup) :
    (prefill_search_section (prefill_search_company env (prefill_search_user env
      (prefill_search_page (prefill_search_lookup s lookup))))).args.ignore_latest =
    s.args.ignore_latest := by
  have h1 : (prefill_search_section (prefill_search_company env (prefill_search_user env
      (prefill_search_page (prefill_search_lookup s lookup))))).args =
      (prefill_search_user env (prefill_search_page (prefill_search_lookup s lookup))).args := rfl
  rw [h1, prefill_search_user_args]
  exact (prefill_search_page_args_core).1

lemma stage5_query (env : Env) (s : SearchQuery) (lookup : Option Lookup) :
    (prefill_search_section (prefill_search_company env (prefill_search_user env
      (prefill_search_page (prefill_search_lookup s lookup))))).query = s.query := by
  rw [prefill_search_section_query, prefill_search_company_query,
    prefill_search_user_query, prefill_search_page_query, prefill_search_lookup_query]

/-- Claim C5: for a request that asks for neither all versions nor
`ignore_latest`, the prefilled context's boolean query contains the
next-version exclusion clause in `must_not`; when the caller requests all
versions, the seeding omits that clause entirely. -/
theorem c5_nextversion_exclusion_seeding (env : Env) (req : Option Req)
    (lookup : Option Lookup) :
    (∀ s1, (prefill_search_args initSearchQuery req).args.all_versions = false →
      (prefill_search_args initSearchQuery req).args.ignore_latest = false →
      requestContext env req lookup = .ok s1 →
      nextversionClause ∈ mustNotListOf s1.query) ∧
    (∀ s1, (prefill_search_args initSearchQuery req).args.all_versions = true →
      requestContext env req lookup = .ok s1 →
      nextversionClause ∉ mustNotListOf s1.query) := by
  constructor
  · intro s1 hv hig hctx
    simp only [requestContext, hv, Bool.false_eq_true, if_false] at hctx
    obtain ⟨s6, s7, h6, h7, hs1⟩ := prefill_search_query_ok_decomp hctx
    have hq7 : s7.query = Query.boolLists [] [] [] none := by
      rw [(prefill_search_products_ok h7).1, (prefill_search_navigation_ok h6).1,
        stage5_query]
      rfl
    have ha7 : s7.args.ignore_latest = false := by
      rw [(prefill_search_products_ok h7).2.1, (prefill_search_navigation_ok h6).2.1,
        stage5_args_ignore]
      exact hig
    have hs1q : s1.query = (prefill_search_items s7).query := by
      rw [hs1]; exact (prefill_search_highlights_core).1
    rw [hs1q, prefill_search_items_query_false ha7 hq7]
    simp [mustNotListOf]
  · intro s1 hv hctx
    simp only [requestContext, hv, if_true] at hctx
    obtain ⟨s6, s7, h6, h7, hs1⟩ := prefill_search_query_ok_decomp hctx
    have hq7 : s7.query = Query.boolLists [] [] [] none := by
      rw [(prefill_search_products_ok h7).1, (prefill_search_navigation_ok h6).1,
        stage5_query]
      rfl
    have ha7 : s7.args.ignore_latest = true := by
      rw [(prefill_search_products_ok h7).2.1, (prefill_search_navigation_ok h6).2.1,
        stage5_args_ignore]
    have hs1q : s1.query = (prefill_search_items s7).query := by
      rw [hs1]; exact (prefill_search_highlights_core).1
    rw [hs1q, prefill_search_items_query_true ha7 hq7]
    simp [mustNotListOf, nextversionClause, compositeClause]

/-- Claim C2: a request whose prefilled context is not an administrator and
has either no company or an empty entitled-product set is rejected with an
authorization error, and no index request is compiled or dispatched —
covering both the plain and the all-versions branch of `get`. -/
theorem c2_no_company_or_no_products_rejected (fuel : Nat) (env : Env)
    (req : Option Req) (lookup : Option Lookup) (st : List String)
    (s1 : SearchQuery)
    (hctx : requestContext env req lookup = .ok s1)
    (hadm : s1.is_admin = false)
    (hco : s1.company = none ∨ s1.products = []) :
    (∃ msg, (serviceGet fuel env req lookup st).result = .err (.authorizationError msg)) ∧
    (serviceGet fuel env req lookup st).dispatched = [] ∧
    (serviceGet fuel env req lookup st).compiled = [] := by
  have hval : ∃ msg, validate_request s1 = .error (.authorizationError msg) := by
    rcases validate_request_auth_err hadm hco with ⟨_, h⟩ | ⟨_, h⟩
    exacts [⟨_, h⟩, ⟨_, h⟩]
  obtain ⟨msg, hval⟩ := hval
  simp only [requestContext] at hctx
  simp only [serviceGet]
  by_cases hv : (prefill_search_args initSearchQuery req).args.all_versions = true
  · rw [if_pos hv] at hctx
    rw [if_pos hv]
    rw [search_all_versions_validate_err hctx hval]
    exact ⟨⟨msg, rfl⟩, rfl, rfl⟩
  · rw [if_neg hv] at hctx
    rw [if_neg hv]
    rw [runSingleSearch_validate_err hctx hval]
    exact ⟨⟨msg, rfl⟩, rfl, rfl⟩

/-- A non-admin session user who belongs to no company. -/
def envC2 : Env :=
  { trivialEnv with
    currentUser := some { _id := "u2", user_type := "public", company := none } }

/-- Witness for claim C2: a companyless non-admin request is rejected with
an authorization error and nothing reaches the index. -/
theorem c2_no_company_or_no_products_rejected_witness :
    (∃ msg, (serviceGet 1 envC2 none none []).result = .err (.authorizationError msg)) ∧
    (serviceGet 1 envC2 none none []).dispatched = [] ∧
    (serviceGet 1 envC2 none none []).compiled = [] :=
  c2_no_company_or_no_products_rejected 1 envC2 none none []
    (unwrapS (requestContext envC2 none none)) (by decide) (by decide)
    (Or.inl (by decide))

lemma prefill_search_user_miss {env : Env} {s : SearchQuery}
    (hadm : is_admin env.currentUser = true)
    (ht : truthyS s.args.user = true)
    (hm : env.findUser (s.args.user.getD "") = none) :
    (prefill_search_user env s).user = none ∧
    (prefill_search_user env s).is_admin = false := by
  simp only [prefill_search_user, hadm, ht, Bool.and_self, if_true, hm]
  simp [is_admin]

/-- When an admin session impersonates a user id that resolves to no user
record, the prefilled context has no user, is not an administrator, and has
no company. -/
lemma prefill_ok_missing_user_facts {env : Env} {s s1 : SearchQuery}
    {lookup : Option Lookup}
    (hctx : prefill_search_query env s lookup = .ok s1)
    (hadm : is_admin env.currentUser = true)
    (ht : truthyS s.args.user = true)
    (hm : env.findUser (s.args.user.getD "") = none) :
    s1.user = none ∧ s1.is_admin = false ∧ s1.company = none := by
  obtain ⟨s6, s7, h6, h7, hs1⟩ := prefill_search_query_ok_decomp hctx
  have ht' : truthyS (prefill_search_page (prefill_search_lookup s lookup)).args.user = true := by
    rw [(prefill_search_page_args_core).2.1]; exact ht
  have hm' : env.findUser
      ((prefill_search_page (prefill_search_lookup s lookup)).args.user.getD "") = none := by
    rw [(prefill_search_page_args_core).2.1]; exact hm
  have hmiss := @prefill_search_user_miss env
    (prefill_search_page (prefill_search_lookup s lookup)) hadm ht' hm'
  have hu5 : (prefill_search_section (prefill_search_company env
      (prefill_search_user env (prefill_search_page
        (prefill_search_lookup s lookup))))).user = none := hmiss.1
  have hadm5 : (prefill_search_section (prefill_search_company env
      (prefill_search_user env (prefill_search_page
        (prefill_search_lookup s lookup))))).is_admin = false := hmiss.2
  have hco5 : (prefill_search_section (prefill_search_company env
      (prefill_search_user env (prefill_search_page
        (prefill_search_lookup s lookup))))).company = none := by
    show get_user_company env (prefill_search_user env (prefill_search_page
      (prefill_search_lookup s lookup))).user = none
    rw [hmiss.1]
    rfl
  obtain ⟨-, -, hu6, hadm6, hco6⟩ := prefill_search_navigation_ok h6
  obtain ⟨-, -, hu7, hadm7, hco7⟩ := prefill_search_products_ok h7
  refine ⟨?_, ?_, ?_⟩
  · rw [hs1, (prefill_search_highlights_core).2.1, (prefill_search_items_core).1,
      hu7, hu6, hu5]
  · rw [hs1, (prefill_search_highlights_core).2.2.1, (prefill_search_items_core).2.1,
      hadm7, hadm6, hadm5]
  · rw [hs1, (prefill_search_highlights_core).2.2.2.1, (prefill_search_items_core).2.2.1,
      hco7, hco6, hco5]

/-- Claim C10: when an admin session supplies a `user` parameter whose id
matches no user record, the request is evaluated as that missing user — the
context has no user, `is_admin` is false and the company is absent — so the
request is rejected with the no-company authorization error instead of
being served with the admin's unrestricted view, and nothing is dispatched
to the index. -/
theorem c10_missing_impersonated_user_rejected (fuel : Nat) (env : Env)
    (req : Option Req) (lookup : Option Lookup) (st : List String)
    (s1 : SearchQuery)
    (hadm : is_admin env.currentUser = true)
    (ht : truthyS (prefill_search_args initSearchQuery req).args.user = true)
    (hm : env.findUser
      ((prefill_search_args initSearchQuery req).args.user.getD "") = none)
    (hctx : requestContext env req lookup = .ok s1) :
    s1.user = none ∧ s1.is_admin = false ∧ s1.company = none ∧
    (serviceGet fuel env req lookup st).result =
      .err (.authorizationError "User does not belong to a company.") ∧
    (serviceGet fuel env req lookup st).dispatched = [] := by
  simp only [requestContext] at hctx
  simp only [serviceGet]
  by_cases hv : (prefill_search_args initSearchQuery req).args.all_versions = true
  · rw [if_pos hv] at hctx
    rw [if_pos hv]
    have hfacts := prefill_ok_missing_user_facts hctx hadm ht hm
    rcases validate_request_auth_err hfacts.2.1 (Or.inl hfacts.2.2) with ⟨-, hval⟩ | ⟨hne, -⟩
    · rw [search_all_versions_validate_err hctx hval]
      exact ⟨hfacts.1, hfacts.2.1, hfacts.2.2, rfl, rfl⟩
    · exact absurd hfacts.2.2 hne
  · rw [if_neg hv] at hctx
    rw [if_neg hv]
    have hfacts := prefill_ok_missing_user_facts hctx hadm ht hm
    rcases validate_request_auth_err hfacts.2.1 (Or.inl hfacts.2.2) with ⟨-, hval⟩ | ⟨hne, -⟩
    · rw [runSingleSearch_validate_err hctx hval]
      exact ⟨hfacts.1, hfacts.2.1, hfacts.2.2, rfl, rfl⟩
    · exact absurd hfacts.2.2 hne

/-- An admin session over a user store that resolves no id. -/
def envC10 : Env :=
  { trivialEnv with
    currentUser := some { _id := "adm", user_type := "administrator", company := none },
    findUser := fun _ => none }

/-- A request in which the admin impersonates the missing user id ghost. -/
def reqC10 : Req :=
  { args := { emptyArgs with user := some "ghost" }, projection := [], sort := none }

/-- Witness for claim C10 at a concrete admin request naming a missing
user. -/
theorem c10_missing_impersonated_user_rejected_witness :
    (unwrapS (requestContext envC10 (some reqC10) none)).user = none ∧
    (unwrapS (requestContext envC10 (some reqC10) none)).is_admin = false ∧
    (unwrapS (requestContext envC10 (some reqC10) none)).company = none ∧
    (serviceGet 1 envC10 (some reqC10) none []).result =
      .err (.authorizationError "User does not belong to a company.") ∧
    (serviceGet 1 envC10 (some reqC10) none []).dispatched = [] :=
  c10_missing_impersonated_user_rejected 1 envC10 (some reqC10) none []
    (unwrapS (requestContext envC10 (some reqC10) none)) (by decide) (by decide)
    (by decide) (by decide)

section ArgsPreservation

variable {env : Env} {s s' : SearchQuery}

lemma apply_section_filter_args : (apply_section_filter env s).args = s.args := by
  unfold apply_section_filter
  split <;> rfl

lemma apply_company_filter_args : (apply_company_filter env s).args = s.args := by
  unfold apply_company_filter
  split
  · rfl
  · split
    · rfl
    · split
      · rfl
      · split <;> rfl

lemma apply_time_limit_filter_args : (apply_time_limit_filter env s).args = s.args := by
  unfold apply_time_limit_filter
  split
  · rfl
  · split
    · rfl
    · split
      · rfl
      · split
        · rfl
        · split <;> rfl

lemma apply_products_filter_args : (apply_products_filter env s).args = s.args := by
  simp only [apply_products_filter]
  split
  · rfl
  · split <;> rfl

lemma requestFilterCore_args (filters : Option (List (String × List String))) :
    (requestFilterCore env s filters).args = s.args := by
  simp only [requestFilterCore]
  repeat' split
  all_goals rfl

lemma apply_request_filter_args (hok : apply_request_filter env s = .ok s') :
    s'.args = s.args := by
  simp only [apply_request_filter] at hok
  rcases hp : parseFilterParam
      (if truthyS s.args.q = true then
        { s with query := addMust (query_string env (s.args.q.getD "")
            (if truthyS s.args.default_operator then s.args.default_operator.getD "AND" else "AND")) s.query }
      else s).args with e | filters
  · rw [hp] at hok; simp at hok
  · rw [hp] at hok
    dsimp only at hok
    rw [← Except.ok.inj hok, requestFilterCore_args]
    split <;> rfl

lemma setMinShould_args : (setMinShould s).args = s.args := by
  unfold setMinShould
  split
  · split <;> rfl
  · rfl

lemma apply_filters_ok_args (hok : apply_filters env s = .ok s') :
    s'.args = s.args := by
  simp only [apply_filters] at hok
  rcases hr : apply_request_filter env (apply_products_filter env
      (apply_time_limit_filter env (apply_company_filter env
        (apply_section_filter env s)))) with e | t
  · rw [hr] at hok; simp at hok
  · rw [hr] at hok
    dsimp only at hok
    rw [← Except.ok.inj hok, setMinShould_args, apply_request_filter_args hr,
      apply_products_filter_args, apply_time_limit_filter_args,
      apply_company_filter_args, apply_section_filter_args]

end ArgsPreservation

section OffsetBound

variable {env : Env} {s : SearchQuery} {lookup : Option Lookup} {st : List String}
variable {fuel : Nat}

lemma runSingleSearch_gen_err {s1 s2 : SearchQuery} {e : SearchError}
    (h1 : prefill_search_query env s lookup = .ok s1)
    (h2 : validate_request s1 = .ok ())
    (h3 : apply_filters env s1 = .ok s2)
    (h4 : gen_source_from_search env s2 = .error e) :
    runSingleSearch env s lookup st = ⟨.err e, [], [], st⟩ := by
  unfold runSingleSearch
  rw [h1]
  dsimp only
  rw [h2]
  dsimp only
  rw [h3]
  dsimp only
  rw [h4]

lemma search_all_versions_gen_err {s1 s2 : SearchQuery} {e : SearchError}
    (h1 : prefill_search_query env
      { s with args := { s.args with ignore_latest := true } } lookup = .ok s1)
    (h2 : validate_request s1 = .ok ())
    (h3 : apply_filters env s1 = .ok s2)
    (h4 : gen_source_from_search env s2 = .error e) :
    search_all_versions fuel env s lookup st = ⟨.err e, [], [], st⟩ := by
  simp only [search_all_versions]
  rw [h1]
  dsimp only
  rw [h2]
  dsimp only
  rw [h3]
  dsimp only
  rw [h4]

lemma runSingleSearch_dispatched_bound :
    ∀ src ∈ (runSingleSearch env s lookup st).dispatched, src.from_.getD 0 ≤ 999 := by
  unfold runSingleSearch
  split
  · simp
  · split
    · simp
    · split
      · simp
      · split
        · simp
        next s3 heq =>
          intro src hsrc
          simp only [List.mem_singleton] at hsrc
          rw [hsrc]
          have hd := gen_source_ok_decomp heq
          show (s3.source.from_.getD 0) ≤ 999
          rw [hd.2.1]
          simp only [Option.getD_some]
          omega

lemma search_all_versions_dispatched_bound :
    ∀ src ∈ (search_all_versions fuel env s lookup st).dispatched,
      src.from_.getD 0 ≤ 999 := by
  simp only [search_all_versions]
  split
  · simp
  · split
    · simp
    · split
      · simp
      · split
        · simp
        next s3 heq3 =>
          split
          next heq5 =>
            intro src hsrc
            simp only [get_internal_request, List.mem_singleton] at hsrc
            rw [hsrc]
            simp
          next nextIds trs heq5 =>
            split
            next heq6 =>
              intro src hsrc
              simp only [get_internal_request] at hsrc
              rcases List.mem_append.mp hsrc with hsrc | hsrc
              · simp only [List.mem_singleton] at hsrc
                rw [hsrc]
                simp
              · rw [resolveAll_trace_from heq5 src hsrc]
                simp
            next s5 heq6 =>
              intro src hsrc
              simp only [get_internal_request] at hsrc
              rcases List.mem_append.mp hsrc with hsrc | hsrc
              · rcases List.mem_append.mp hsrc with hsrc | hsrc
                · simp only [List.mem_singleton] at hsrc
                  rw [hsrc]
                  simp
                · rw [resolveAll_trace_from heq5 src hsrc]
                  simp
              · simp only [List.mem_singleton] at hsrc
                rw [hsrc]
                have hd := gen_source_ok_decomp heq6
                have hb := hd.2.2.1
                show (s5.source.from_.getD 0) ≤ 999
                rw [hd.2.1]
                simp only [Option.getD_some]
                dsimp only at hb ⊢
                omega

end OffsetBound

/-- Claim C4: every index request the service actually dispatches carries an
offset of at most 999; and whenever the derived offset of an otherwise valid
request (prefill, validation and filters all succeed) reaches 1000, the
request fails with the page-limit error and nothing is compiled or
dispatched — the abort happens in the compile stage, before the index is
reached, on both branches of `get`. -/
theorem c4_pagination_ceiling (fuel : Nat) (env : Env) (req : Option Req)
    (lookup : Option Lookup) (st : List String) :
    (∀ src ∈ (serviceGet fuel env req lookup st).dispatched, src.from_.getD 0 ≤ 999) ∧
    (∀ s1 s2, requestContext env req lookup = .ok s1 →
      validate_request s1 = .ok () →
      apply_filters env s1 = .ok s2 →
      1000 ≤ s1.args.from_.getD 0 →
      (serviceGet fuel env req lookup st).result = .err (.limitExceeded "Page limit exceeded") ∧
      (serviceGet fuel env req lookup st).dispatched = [] ∧
      (serviceGet fuel env req lookup st).compiled = []) := by
  constructor
  · simp only [serviceGet]
    by_cases hv : (prefill_search_args initSearchQuery req).args.all_versions = true
    · rw [if_pos hv]
      exact search_all_versions_dispatched_bound
    · rw [if_neg hv]
      exact runSingleSearch_dispatched_bound
  · intro s1 s2 hctx hval hfil hlim
    have hgen : gen_source_from_search env s2 =
        .error (.limitExceeded "Page limit exceeded") := by
      apply gen_source_limit_err
      rw [apply_filters_ok_args hfil]
      exact hlim
    simp only [requestContext] at hctx
    simp only [serviceGet]
    by_cases hv : (prefill_search_args initSearchQuery req).args.all_versions = true
    · rw [if_pos hv] at hctx
      rw [if_pos hv]
      rw [search_all_versions_gen_err hctx hval hfil hgen]
      exact ⟨rfl, rfl, rfl⟩
    · rw [if_neg hv] at hctx
      rw [if_neg hv]
      rw [runSingleSearch_gen_err hctx hval hfil hgen]
      exact ⟨rfl, rfl, rfl⟩

/-- An admin request whose pagination offset is far past the ceiling. -/
def reqC4 : Req :=
  { args := { emptyArgs with from_ := some 1500 }, projection := [], sort := none }

/-- Witness for claim C4: an otherwise valid admin request with offset 1500
fails with the page-limit error and dispatches nothing. -/
theorem c4_pagination_ceiling_witness :
    (serviceGet 1 envAdm (some reqC4) none []).result =
      .err (.limitExceeded "Page limit exceeded") ∧
    (serviceGet 1 envAdm (some reqC4) none []).dispatched = [] ∧
    (serviceGet 1 envAdm (some reqC4) none []).compiled = [] :=
  (c4_pagination_ceiling 1 envAdm (some reqC4) none []).2
    (unwrapS (requestContext envAdm (some reqC4) none))
    (unwrapS (apply_filters envAdm (unwrapS (requestContext envAdm (some reqC4) none))))
    (by decide) (by decide) (by decide) (by decide)

section StateIndependence

variable {env : Env} {s : SearchQuery} {lookup : Option Lookup}

lemma runSingleSearch_state_indep (st st' : List String) :
    (runSingleSearch env s lookup st).result = (runSingleSearch env s lookup st').result ∧
    (runSingleSearch env s lookup st).compiled = (runSingleSearch env s lookup st').compiled ∧
    (runSingleSearch env s lookup st).dispatched = (runSingleSearch env s lookup st').dispatched := by
  unfold runSingleSearch
  split
  · exact ⟨rfl, rfl, rfl⟩
  · split
    · exact ⟨rfl, rfl, rfl⟩
    · split
      · exact ⟨rfl, rfl, rfl⟩
      · split
        · exact ⟨rfl, rfl, rfl⟩
        · exact ⟨rfl, rfl, rfl⟩

lemma search_all_versions_state_indep (fuel : Nat) (st st' : List String) :
    (search_all_versions fuel env s lookup st).result =
      (search_all_versions fuel env s lookup st').result ∧
    (search_all_versions fuel env s lookup st).compiled =
      (search_all_versions fuel env s lookup st').compiled ∧
    (search_all_versions fuel env s lookup st).dispatched =
      (search_all_versions fuel env s lookup st').dispatched := by
  simp only [search_all_versions]
  split
  · exact ⟨rfl, rfl, rfl⟩
  · split
    · exact ⟨rfl, rfl, rfl⟩
    · split
      · exact ⟨rfl, rfl, rfl⟩
      · split
        · exact ⟨rfl, rfl, rfl⟩
        · split
          · exact ⟨rfl, rfl, rfl⟩
          · split
            · exact ⟨rfl, rfl, rfl⟩
            · exact ⟨rfl, rfl, rfl⟩

lemma serviceGet_state_indep (fuel : Nat) (req : Option Req) (st st' : List String) :
    (serviceGet fuel env req lookup st).result = (serviceGet fuel env req lookup st').result ∧
    (serviceGet fuel env req lookup st).compiled = (serviceGet fuel env req lookup st').compiled ∧
    (serviceGet fuel env req lookup st).dispatched = (serviceGet fuel env req lookup st').dispatched := by
  simp only [serviceGet]
  split
  · exact search_all_versions_state_indep fuel st st'
  · exact runSingleSearch_state_indep st st'

lemma searchEndpoint_compiled_eq (fuel : Nat) (req : Option Req) (st : List String) :
    (searchEndpoint fuel env req lookup st).compiled =
      (serviceGet fuel env req lookup st).compiled := by
  simp only [searchEndpoint]
  split <;> rfl

end StateIndependence

/-- Claim C9: the compiled index requests (and the result and full dispatch
trace) of a service call do not depend on the `_matched_ids` instance state
the call starts with, and re-running the same raw request against the same
environment — including with the instance state left behind by a first
endpoint call — compiles the identical requests; with equal `Source` values,
`json.dumps` serialization in `get_internal_request` is byte-identical. -/
theorem c9_compilation_deterministic (fuel : Nat) (env : Env) (req : Option Req)
    (lookup : Option Lookup) (st st' : List String) :
    (serviceGet fuel env req lookup st).result = (serviceGet fuel env req lookup st').result ∧
    (serviceGet fuel env req lookup st).compiled = (serviceGet fuel env req lookup st').compiled ∧
    (serviceGet fuel env req lookup st).dispatched = (serviceGet fuel env req lookup st').dispatched ∧
    (searchEndpoint fuel env req lookup
        ((searchEndpoint fuel env req lookup st).matchedIds)).compiled =
      (searchEndpoint fuel env req lookup st).compiled := by
  refine ⟨(serviceGet_state_indep fuel req st st').1,
    (serviceGet_state_indep fuel req st st').2.1,
    (serviceGet_state_indep fuel req st st').2.2, ?_⟩
  rw [searchEndpoint_compiled_eq, searchEndpoint_compiled_eq]
  exact (serviceGet_state_indep fuel req _ st).2.1

section SeedInvariant

variable {env : Env} {s s1 : SearchQuery} {lookup : Option Lookup} {st : List String}

lemma prefill_search_query_hasSeeds
    (h : prefill_search_query env s lookup = .ok s1)
    {m mn sh : List Clause} {msm : Option Nat}
    (hq : s.query = .boolLists m mn sh msm) : hasSeeds s1.query := by
  obtain ⟨s6, s7, h6, h7, hs1⟩ := prefill_search_query_ok_decomp h
  have hq7 : s7.query = Query.boolLists m mn sh msm := by
    rw [(prefill_search_products_ok h7).1, (prefill_search_navigation_ok h6).1,
      stage5_query]
    exact hq
  have hs1q : s1.query = (prefill_search_items s7).query := by
    rw [hs1]; exact (prefill_search_highlights_core).1
  rw [hs1q]
  by_cases hig : s7.args.ignore_latest = true
  · rw [prefill_search_items_query_true hig hq7]
    exact ⟨by simp [mustNotListOf], by simp [mustListOf]⟩
  · have hig' : s7.args.ignore_latest = false := by
      cases hx : s7.args.ignore_latest
      · rfl
      · exact absurd hx hig
    rw [prefill_search_items_query_false hig' hq7]
    exact ⟨by simp [mustNotListOf], by simp [mustListOf]⟩

lemma runSingleSearch_compiled_seeds
    (hq : ∃ m mn sh msm, s.query = Query.boolLists m mn sh msm) :
    ∀ src ∈ (runSingleSearch env s lookup st).compiled,
      ∀ m mn sh msm, src.query = some (.boolLists m mn sh msm) →
        compositeClause ∈ mn ∧ itemsTypeClause ∈ m := by
  obtain ⟨m0, mn0, sh0, msm0, hq⟩ := hq
  unfold runSingleSearch
  split
  · simp
  next s1 h1 =>
    split
    · simp
    · split
      · simp
      next s2 h3 =>
        split
        · simp
        next s3 h4 =>
          intro src hsrc m mn sh msm hqr
          simp only [get_internal_request, List.mem_singleton] at hsrc
          subst hsrc
          have hseeds : hasSeeds s2.query :=
            hasSeeds_apply_filters (prefill_search_query_hasSeeds h1 hq) h3
          have hd := gen_source_ok_decomp h4
          rw [hd.1] at hqr
          rw [Option.some.inj hqr] at hseeds
          exact hseeds

lemma search_all_versions_compiled_seeds {fuel : Nat}
    (hq : ∃ m mn sh msm, s.query = Query.boolLists m mn sh msm) :
    ∀ src ∈ (search_all_versions fuel env s lookup st).compiled,
      ∀ m mn sh msm, src.query = some (.boolLists m mn sh msm) →
        compositeClause ∈ mn ∧ itemsTypeClause ∈ m := by
  obtain ⟨m0, mn0, sh0, msm0, hq⟩ := hq
  have hq' : SearchQuery.query { s with args := { s.args with ignore_latest := true } } =
      Query.boolLists m0 mn0 sh0 msm0 := hq
  simp only [search_all_versions]
  split
  · simp
  next s1 h1 =>
    split
    · simp
    · split
      · simp
      next s2 h3 =>
        split
        · simp
        next s3 h4 =>
          have hseeds : hasSeeds s2.query :=
            hasSeeds_apply_filters (prefill_search_query_hasSeeds h1 hq') h3
          have hd := gen_source_ok_decomp h4
          split
          next heq5 =>
            intro src hsrc m mn sh msm hqr
            simp only [get_internal_request, List.mem_singleton] at hsrc
            subst hsrc
            dsimp only at hqr
            rw [hd.1] at hqr
            rw [Option.some.inj hqr] at hseeds
            exact hseeds
          next nextIds trs heq5 =>
            split
            next heq6 =>
              intro src hsrc m mn sh msm hqr
              simp only [get_internal_request, List.mem_singleton] at hsrc
              subst hsrc
              dsimp only at hqr
              rw [hd.1] at hqr
              rw [Option.some.inj hqr] at hseeds
              exact hseeds
            next s5 heq6 =>
              intro src hsrc m mn sh msm hqr
              simp only [get_internal_request, List.mem_cons,
                List.mem_singleton, List.not_mem_nil, or_false] at hsrc
              rcases hsrc with hsrc | hsrc
              · subst hsrc
                dsimp only at hqr
                rw [hd.1] at hqr
                rw [Option.some.inj hqr] at hseeds
                exact hseeds
              · subst hsrc
                have hd2 := gen_source_ok_decomp heq6
                rw [hd2.1] at hqr
                dsimp only at hqr
                simp at hqr

end SeedInvariant

/-- Claim C3 (amended): every compiled index request whose boolean query is
in the pipeline-built must/must_not/should form carries the composite-type
exclusion clause in `must_not` and the item-type inclusion clause in `must`;
this covers the single compiled request of a plain search and the first pass
of the all-versions orchestrator, while the orchestrator's second pass
instead replaces the boolean query wholesale with a single id-terms must
clause and carries neither seed clause. -/
theorem c3_pipeline_built_queries_carry_seeds (fuel : Nat) (env : Env)
    (req : Option Req) (lookup : Option Lookup) (st : List String) :
    ∀ src ∈ (serviceGet fuel env req lookup st).compiled,
      ∀ m mn sh msm, src.query = some (.boolLists m mn sh msm) →
        compositeClause ∈ mn ∧ itemsTypeClause ∈ m := by
  simp only [serviceGet]
  split
  · exact search_all_versions_compiled_seeds ⟨[], [], [], none, rfl⟩
  · exact runSingleSearch_compiled_seeds ⟨[], [], [], none, rfl⟩

/-- Witness for the amended claim C3: the compiled request of a plain admin
search satisfies the seed invariant. -/
theorem c3_pipeline_built_queries_carry_seeds_witness :
    compositeClause ∈ [compositeClause, nextversionClause] ∧
    itemsTypeClause ∈ [itemsTypeClause] :=
  c3_pipeline_built_queries_carry_seeds 1 envAdm (some reqPlain) none []
    ((serviceGet 1 envAdm (some reqPlain) none []).compiled.getD 0 emptySource)
    (by decide)
    [itemsTypeClause] [compositeClause, nextversionClause] [] none (by decide)

/-- Witness for claim C5 at concrete requests: the next-version exclusion is
seeded for a plain request and omitted for an all-versions request. -/
theorem c5_nextversion_exclusion_seeding_witness :
    nextversionClause ∈ mustNotListOf
      (unwrapS (requestContext envAdm (some reqPlain) none)).query ∧
    nextversionClause ∉ mustNotListOf
      (unwrapS (requestContext envAdm (some reqAllVersions) none)).query := by
  constructor
  · exact (c5_nextversion_exclusion_seeding envAdm (some reqPlain) none).1
      (unwrapS (requestContext envAdm (some reqPlain) none)) (by decide) (by decide)
      (by decide)
  · exact (c5_nextversion_exclusion_seeding envAdm (some reqAllVersions) none).2
      (unwrapS (requestContext envAdm (some reqAllVersions) none)) (by decide)
      (by decide)

/-- A document whose next-version link points at a missing document. -/
def docDangling : Doc :=
  { _id := "a", type_ := "text", _type := "items", nextversion := some "gone",
    original_id := some "root", products_code := [] }

/-- A store containing only the dangling document. -/
def envDangling : Env := { trivialEnv with store := [docDangling] }

/-- Witness for claim C7 at a concrete dangling chain. -/
theorem c7_dangling_link_returns_input_witness :
    ∃ tr, get_last_version 1 envDangling docDangling = some (docDangling, tr) :=
  c7_dangling_link_returns_input envDangling docDangling 0 (by decide) (by decide)
    (fun _ => by decide)

end NewsroomSearch
